import Mathlib

/-!
Shallow embedding of the mindmapper document engine.

The embedding follows `src/state/MindMapContext.tsx` (document model, history
engine, reducer) and the canvas controller (`adjustZoom`,
`getScenePointFromCanvas`, `calculateFitView`, the pointer-interaction state
machine, the shape-resize branches of `handlePointerMove`, and the JSON import
sanitizers).  JavaScript numbers are modelled as rationals, JS `Map`s as
association lists (`set` overwrites, insertion order kept), JS `Set`s as lists
used only through membership, and object spreads as record updates.  Object
cloning (`{ ...node }`) is the identity on immutable values and is therefore
not reproduced.  Identifiers named `...Annot` below correspond to the
source's `...Annotation` family.
-/

namespace Mindmapper

inductive TextSize where
  | small
  | medium
  | large
deriving DecidableEq

/-- Node record from `MindMapContext.tsx`. -/
structure MindMapNode where
  id : String
  parentId : Option String
  text : String
  x : ℚ
  y : ℚ
  color : String
  textSize : TextSize
deriving DecidableEq

/-- The source's `MindMapAnnotation` record. -/
structure MindMapAnnot where
  id : String
  text : String
  x : ℚ
  y : ℚ
  textSize : TextSize
deriving DecidableEq

/-- The source's tagged shape union (ring / ellipse / rectangle / arrow / line). -/
inductive MindMapShape where
  | ring (id : String) (x y radius thickness : ℚ) (color : String)
  | ellipse (id : String) (x y radiusX radiusY thickness : ℚ) (color : String)
  | rectangle (id : String) (x y width height thickness : ℚ) (color : String)
  | arrow (id : String) (x y width height thickness angle : ℚ) (color : String)
  | line (id : String) (x y len thickness angle : ℚ) (color : String)
deriving DecidableEq

def MindMapShape.id : MindMapShape → String
  | .ring i _ _ _ _ _ => i
  | .ellipse i _ _ _ _ _ _ => i
  | .rectangle i _ _ _ _ _ _ => i
  | .arrow i _ _ _ _ _ _ _ => i
  | .line i _ _ _ _ _ _ => i

/-- `{ ...shape, x, y }` used by the MOVE_SHAPE case. -/
def MindMapShape.withPos : MindMapShape → ℚ → ℚ → MindMapShape
  | .ring i _ _ r t c, nx, ny => .ring i nx ny r t c
  | .ellipse i _ _ rx ry t c, nx, ny => .ellipse i nx ny rx ry t c
  | .rectangle i _ _ w h t c, nx, ny => .rectangle i nx ny w h t c
  | .arrow i _ _ w h t a c, nx, ny => .arrow i nx ny w h t a c
  | .line i _ _ l t a c, nx, ny => .line i nx ny l t a c

/-- Partial update payload for UPDATE_NODE / UPDATE_NODES
(`Partial<Omit<MindMapNode, 'id'>>`); absent fields are `none`. -/
structure NodeUpdate where
  parentId : Option (Option String) := none
  text : Option String := none
  x : Option ℚ := none
  y : Option ℚ := none
  color : Option String := none
  textSize : Option TextSize := none
deriving DecidableEq

/-- `{ ...node, ...updates, id: node.id }`. -/
def applyNodeUpdate (node : MindMapNode) (u : NodeUpdate) : MindMapNode :=
  { id := node.id
    parentId := u.parentId.getD node.parentId
    text := u.text.getD node.text
    x := u.x.getD node.x
    y := u.y.getD node.y
    color := u.color.getD node.color
    textSize := u.textSize.getD node.textSize }

/-- `{ ...existing, ...sanitized }` when UPDATE_NODES merges two updates for
the same node id: fields of the later update win where present. -/
def mergeNodeUpdate (existing later : NodeUpdate) : NodeUpdate :=
  { parentId := later.parentId <|> existing.parentId
    text := later.text <|> existing.text
    x := later.x <|> existing.x
    y := later.y <|> existing.y
    color := later.color <|> existing.color
    textSize := later.textSize <|> existing.textSize }

/-- Partial update payload for UPDATE_ANNOTATION. -/
structure AnnotUpdate where
  text : Option String := none
  x : Option ℚ := none
  y : Option ℚ := none
  textSize : Option TextSize := none
deriving DecidableEq

def applyAnnotUpdate (a : MindMapAnnot) (u : AnnotUpdate) : MindMapAnnot :=
  { id := a.id
    text := u.text.getD a.text
    x := u.x.getD a.x
    y := u.y.getD a.y
    textSize := u.textSize.getD a.textSize }

/-- Partial update payload for UPDATE_SHAPE (`MindMapShapeUpdate`): the union
of the per-kind partial records; each kind reads only its own fields. -/
structure ShapeUpdate where
  x : Option ℚ := none
  y : Option ℚ := none
  radius : Option ℚ := none
  radiusX : Option ℚ := none
  radiusY : Option ℚ := none
  width : Option ℚ := none
  height : Option ℚ := none
  len : Option ℚ := none
  thickness : Option ℚ := none
  angle : Option ℚ := none
  color : Option String := none
deriving DecidableEq

/-- `{ ...shape, ...updates, id: shape.id, kind }`, per kind. -/
def applyShapeUpdate (shape : MindMapShape) (u : ShapeUpdate) : MindMapShape :=
  match shape with
  | .ring i x y r t c =>
      .ring i (u.x.getD x) (u.y.getD y) (u.radius.getD r) (u.thickness.getD t) (u.color.getD c)
  | .ellipse i x y rx ry t c =>
      .ellipse i (u.x.getD x) (u.y.getD y) (u.radiusX.getD rx) (u.radiusY.getD ry)
        (u.thickness.getD t) (u.color.getD c)
  | .rectangle i x y w h t c =>
      .rectangle i (u.x.getD x) (u.y.getD y) (u.width.getD w) (u.height.getD h)
        (u.thickness.getD t) (u.color.getD c)
  | .arrow i x y w h t a c =>
      .arrow i (u.x.getD x) (u.y.getD y) (u.width.getD w) (u.height.getD h)
        (u.thickness.getD t) (u.angle.getD a) (u.color.getD c)
  | .line i x y l t a c =>
      .line i (u.x.getD x) (u.y.getD y) (u.len.getD l) (u.thickness.getD t)
        (u.angle.getD a) (u.color.getD c)

/-- Snapshot of the three entity collections (`MindMapSnapshot`). -/
structure MindMapSnapshot where
  nodes : List MindMapNode
  annotations : List MindMapAnnot
  shapes : List MindMapShape
deriving DecidableEq

structure MindMapHistory where
  past : List MindMapSnapshot
  future : List MindMapSnapshot
deriving DecidableEq

structure MindMapState where
  nodes : List MindMapNode
  annotations : List MindMapAnnot
  shapes : List MindMapShape
  selectedNodeIds : List String
  selectedAnnotationId : Option String
  selectedShapeId : Option String
  history : MindMapHistory
deriving DecidableEq

def DEFAULT_NODE_COLOR : String := "#4f46e5"

def ROOT_NODE_ID : String := "root"

def initialState : MindMapState :=
  { nodes := [{ id := ROOT_NODE_ID, parentId := none, text := "Root", x := 0, y := 0,
                color := DEFAULT_NODE_COLOR, textSize := .medium }]
    annotations := []
    shapes := []
    selectedNodeIds := [ROOT_NODE_ID]
    selectedAnnotationId := none
    selectedShapeId := none
    history := { past := [], future := [] } }

/-- The reducer's action union (`MindMapAction`). -/
inductive MindMapAction where
  | addNodes (nodes : List MindMapNode) (selectedNodeIds : Option (List String))
  | addNode (node : MindMapNode)
  | updateNode (nodeId : String) (updates : NodeUpdate)
  | updateNodes (updates : List (String × NodeUpdate))
  | deleteNode (nodeId : String)
  | deleteNodes (nodeIds : List String)
  | moveNode (nodeId : String) (x y : ℚ)
  | moveNodes (updates : List (String × ℚ × ℚ))
  | setSelectedNodes (nodeIds : List String)
  | toggleNodeSelection (nodeId : String)
  | clearSelectedNodes
  | clearAll
  | addAnnot (a : MindMapAnnot)
  | updateAnnot (annotationId : String) (updates : AnnotUpdate)
  | moveAnnot (annotationId : String) (x y : ℚ)
  | deleteAnnot (annotationId : String)
  | addShape (shape : MindMapShape)
  | updateShape (shapeId : String) (updates : ShapeUpdate)
  | moveShape (shapeId : String) (x y : ℚ)
  | deleteShape (shapeId : String)
  | undo
  | redo
  | importDoc (nodes : List MindMapNode) (annotations : Option (List MindMapAnnot))
      (shapes : Option (List MindMapShape))
  | exportDoc
  | selectAnnot (annotationId : Option String)
  | selectShape (shapeId : Option String)
deriving DecidableEq

/-- JS truthiness of a `string | null` value: `null` and the empty string are
falsy.  The reducer tests ids with bare truthiness in several places. -/
def truthyId : Option String → Bool
  | none => false
  | some s => s ≠ ""

/-- JS `Map.get` on an association list with unique keys. -/
def mget {α : Type} (m : List (String × α)) (k : String) : Option α :=
  (m.find? (fun p => p.1 = k)).map (·.2)

/-- JS `Map.set`: overwrite an existing binding, else append. -/
def mset {α : Type} (m : List (String × α)) (k : String) (v : α) : List (String × α) :=
  if m.any (fun p => p.1 = k) then
    m.map (fun p => if p.1 = k then (k, v) else p)
  else
    m ++ [(k, v)]

def cloneSnapshot (state : MindMapState) : MindMapSnapshot :=
  { nodes := state.nodes, annotations := state.annotations, shapes := state.shapes }

/-- Optional overrides accepted by `commitState`. -/
structure CommitOverrides where
  nodes : Option (List MindMapNode) := none
  annotations : Option (List MindMapAnnot) := none
  shapes : Option (List MindMapShape) := none
  selectedNodeIds : Option (List String) := none
  selectedAnnotationId : Option (Option String) := none
  selectedShapeId : Option (Option String) := none

/-- `commitState`: adopt the overridden collections, push a snapshot of the
previous state onto `past` and clear `future`. -/
def commitState (state : MindMapState) (o : CommitOverrides) : MindMapState :=
  { nodes := o.nodes.getD state.nodes
    annotations := o.annotations.getD state.annotations
    shapes := o.shapes.getD state.shapes
    selectedNodeIds := o.selectedNodeIds.getD state.selectedNodeIds
    selectedAnnotationId := o.selectedAnnotationId.getD state.selectedAnnotationId
    selectedShapeId := o.selectedShapeId.getD state.selectedShapeId
    history := { past := state.history.past ++ [cloneSnapshot state], future := [] } }

/-- `normalizeSelectedNodeIds`: keep ids of existing nodes, drop duplicates,
preserve first-occurrence order. -/
def normalizeSelectedNodeIds (nodeIds : List String) (nodes : List MindMapNode) : List String :=
  if nodeIds = [] then []
  else
    let existingIds := nodes.map (·.id)
    nodeIds.foldl
      (fun normalized id =>
        if ¬ id ∈ existingIds ∨ id ∈ normalized then normalized else normalized ++ [id])
      []

/-- `childrenByParent.get(id)`: the nodes whose `parentId` is `id`, in list
order (the index is built by one pass over the node list). -/
def childrenOf (nodes : List MindMapNode) (id : String) : List MindMapNode :=
  nodes.filter (fun n => n.parentId = some id)

/-- The recursive `visit` of `removeNodesAndDescendants`: depth-first
collection of `id` and all ids reachable from it through the parent-derived
child index, with the visited set (`idsToRemove`) shared across calls.  The
source recursion terminates because the visited set grows; here the call
depth is bounded by a fuel argument, instantiated below with
`nodes.length + 1`, which the termination argument shows is never exhausted. -/
def visit (nodes : List MindMapNode) : ℕ → String → List String → List String
  | 0, _, acc => acc
  | fuel + 1, id, acc =>
    if id ∈ acc then acc
    else if (nodes.find? (fun n => n.id = id)).isNone then acc
    else (childrenOf nodes id).foldl (fun a child => visit nodes fuel child.id a) (id :: acc)

structure RemovalResult where
  nextNodes : List MindMapNode
  removedIds : List String
  removalRoots : List MindMapNode
deriving DecidableEq

/-- `removeNodesAndDescendants`. -/
def removeNodesAndDescendants (nodes : List MindMapNode) (nodeIds : List String) :
    Option RemovalResult :=
  if nodeIds = [] then none
  else
    let step := fun (st : List String × List MindMapNode) (id : String) =>
      if id ∈ st.1 then st
      else
        match nodes.find? (fun n => n.id = id) with
        | none => st
        | some node => (visit nodes (nodes.length + 1) id st.1, st.2 ++ [node])
    let result := nodeIds.foldl step ([], [])
    if result.1 = [] then none
    else
      some { nextNodes := nodes.filter (fun n => ¬ n.id ∈ result.1)
             removedIds := result.1
             removalRoots := result.2 }

/-- `deleteNodes` with its selection fallback. -/
def deleteNodes (state : MindMapState) (nodeIds : List String) : MindMapState :=
  match removeNodesAndDescendants state.nodes nodeIds with
  | none => state
  | some r =>
    let remainingSelection := state.selectedNodeIds.filter (fun id => ¬ id ∈ r.removedIds)
    let remainingNodeIds := r.nextNodes.map (·.id)
    let selectedNodeIds :=
      if remainingSelection ≠ [] then remainingSelection
      else
        let parentFallback := (r.removalRoots.map (·.parentId)).find?
          (fun pid =>
            match pid with
            | some p => p ≠ "" ∧ ¬ p ∈ r.removedIds ∧ p ∈ remainingNodeIds
            | none => false)
        match parentFallback with
        | some (some p) => [p]
        | _ =>
          match r.nextNodes.head? with
          | some n => [n.id]
          | none => []
    commitState state { nodes := some r.nextNodes, selectedNodeIds := some selectedNodeIds }

/-- `moveNodes`: a `didChange` guard skips the commit when every targeted node
already sits at the requested coordinates.  The source tracks `didChange` with
a mutable flag set exactly when a node record is replaced; here that is the
comparison `nextNodes = state.nodes`. -/
def moveNodes (state : MindMapState) (updates : List (String × ℚ × ℚ)) : MindMapState :=
  if updates = [] then state
  else
    let updateMap := updates.foldl (fun m u => mset m u.1 u.2) []
    if updateMap = [] then state
    else
      let nextNodes := state.nodes.map (fun node =>
        match mget updateMap node.id with
        | none => node
        | some pos =>
          if node.x = pos.1 ∧ node.y = pos.2 then node
          else { node with x := pos.1, y := pos.2 })
      if nextNodes = state.nodes then state
      else commitState state { nodes := some nextNodes }

/-- `updateNodes` (the batch UPDATE_NODES path): merges duplicate entries,
then applies them with a `didChange` guard; `textSize` values are already
normalized in this typed embedding, so the source's `normalizeTextSize`
sanitization step is the identity here. -/
def updateNodes (state : MindMapState) (updates : List (String × NodeUpdate)) : MindMapState :=
  if updates = [] then state
  else
    let updateMap := updates.foldl
      (fun m e =>
        match mget m e.1 with
        | some existing => mset m e.1 (mergeNodeUpdate existing e.2)
        | none => mset m e.1 e.2)
      []
    if updateMap = [] then state
    else
      let nextNodes := state.nodes.map (fun node =>
        match mget updateMap node.id with
        | none => node
        | some u =>
          let merged := applyNodeUpdate node u
          if merged = node then node else merged)
      if nextNodes = state.nodes then state
      else commitState state { nodes := some nextNodes }

def resetRoot : MindMapNode :=
  { id := ROOT_NODE_ID, parentId := none, text := "Root", x := 0, y := 0,
    color := DEFAULT_NODE_COLOR, textSize := .medium }

/-- `mindMapReducer`. -/
def mindMapReducer (state : MindMapState) (action : MindMapAction) : MindMapState :=
  match action with
  | .addNodes nodes selection =>
    let start : List String × List MindMapNode := (state.nodes.map (·.id), [])
    let folded := nodes.foldl
      (fun st node => if node.id ∈ st.1 then st else (node.id :: st.1, st.2 ++ [node]))
      start
    let newNodes := folded.2
    if newNodes = [] then state
    else
      let nextNodes := state.nodes ++ newNodes
      let desiredSelection := selection.getD (newNodes.map (·.id))
      let selectedNodeIds := normalizeSelectedNodeIds desiredSelection nextNodes
      let hasSelection := selectedNodeIds ≠ []
      commitState state
        { nodes := some nextNodes
          selectedNodeIds := some selectedNodeIds
          selectedAnnotationId :=
            some (if hasSelection then none else state.selectedAnnotationId)
          selectedShapeId := some (if hasSelection then none else state.selectedShapeId) }
  | .addNode node =>
    commitState state
      { nodes := some (state.nodes ++ [node])
        selectedNodeIds := some [node.id]
        selectedAnnotationId := some none
        selectedShapeId := some none }
  | .updateNode nodeId updates =>
    let nextNodes := state.nodes.map (fun node =>
      if node.id = nodeId then applyNodeUpdate node updates else node)
    commitState state { nodes := some nextNodes }
  | .updateNodes updates => Mindmapper.updateNodes state updates
  | .deleteNode nodeId => Mindmapper.deleteNodes state [nodeId]
  | .deleteNodes nodeIds => Mindmapper.deleteNodes state nodeIds
  | .moveNode nodeId x y => Mindmapper.moveNodes state [(nodeId, x, y)]
  | .moveNodes updates => Mindmapper.moveNodes state updates
  | .clearAll =>
    let hasExtraNodes := state.nodes ≠ [resetRoot]
    let hasShapes := state.shapes ≠ []
    if ¬ hasExtraNodes ∧ state.annotations = [] ∧ ¬ hasShapes then state
    else
      commitState state
        { nodes := some [resetRoot]
          annotations := some []
          shapes := some []
          selectedNodeIds := some [ROOT_NODE_ID]
          selectedAnnotationId := some none
          selectedShapeId := some none }
  | .addAnnot a =>
    commitState state
      { annotations := some (state.annotations ++ [a])
        selectedAnnotationId := some (some a.id)
        selectedNodeIds := some []
        selectedShapeId := some none }
  | .updateAnnot annotationId updates =>
    let nextAnnotations := state.annotations.map (fun a =>
      if a.id = annotationId then applyAnnotUpdate a updates else a)
    commitState state { annotations := some nextAnnotations }
  | .moveAnnot annotationId x y =>
    let nextAnnotations := state.annotations.map (fun a =>
      if a.id = annotationId then { a with x := x, y := y } else a)
    commitState state { annotations := some nextAnnotations }
  | .deleteAnnot annotationId =>
    if ¬ state.annotations.any (fun a => a.id = annotationId) then state
    else
      let nextAnnotations := state.annotations.filter (fun a => ¬ a.id = annotationId)
      let selectedAnnotationId :=
        if truthyId state.selectedAnnotationId ∧ state.selectedAnnotationId = some annotationId
        then none else state.selectedAnnotationId
      commitState state
        { annotations := some nextAnnotations
          selectedAnnotationId := some selectedAnnotationId }
  | .addShape shape =>
    commitState state
      { shapes := some (state.shapes ++ [shape])
        selectedShapeId := some (some shape.id)
        selectedNodeIds := some []
        selectedAnnotationId := some none }
  | .updateShape shapeId updates =>
    let nextShapes := state.shapes.map (fun shape =>
      if shape.id = shapeId then applyShapeUpdate shape updates else shape)
    commitState state { shapes := some nextShapes }
  | .moveShape shapeId x y =>
    let nextShapes := state.shapes.map (fun shape =>
      if shape.id = shapeId then shape.withPos x y else shape)
    commitState state { shapes := some nextShapes }
  | .deleteShape shapeId =>
    if ¬ state.shapes.any (fun shape => shape.id = shapeId) then state
    else
      let nextShapes := state.shapes.filter (fun shape => ¬ shape.id = shapeId)
      let selectedShapeId :=
        if truthyId state.selectedShapeId ∧ state.selectedShapeId = some shapeId
        then none else state.selectedShapeId
      commitState state { shapes := some nextShapes, selectedShapeId := some selectedShapeId }
  | .undo =>
    match state.history.past.getLast? with
    | none => state
    | some previousSnapshot =>
      let past := state.history.past.dropLast
      let future := cloneSnapshot state :: state.history.future
      let normalizedSelection := normalizeSelectedNodeIds state.selectedNodeIds previousSnapshot.nodes
      let selectedNodeIds :=
        if normalizedSelection ≠ [] then normalizedSelection
        else
          match previousSnapshot.nodes.head? with
          | some n => [n.id]
          | none => []
      let selectedAnnotationId :=
        if truthyId state.selectedAnnotationId ∧
            previousSnapshot.annotations.any (fun a => some a.id = state.selectedAnnotationId)
        then state.selectedAnnotationId
        else (previousSnapshot.annotations.head?).map (·.id)
      let selectedShapeId :=
        if truthyId state.selectedShapeId ∧
            previousSnapshot.shapes.any (fun s => some s.id = state.selectedShapeId)
        then state.selectedShapeId
        else (previousSnapshot.shapes.head?).map (·.id)
      { nodes := previousSnapshot.nodes
        annotations := previousSnapshot.annotations
        shapes := previousSnapshot.shapes
        selectedNodeIds := selectedNodeIds
        selectedAnnotationId := selectedAnnotationId
        selectedShapeId := selectedShapeId
        history := { past := past, future := future } }
  | .redo =>
    match state.history.future with
    | [] => state
    | nextSnapshot :: restFuture =>
      let past := state.history.past ++ [cloneSnapshot state]
      let normalizedSelection := normalizeSelectedNodeIds state.selectedNodeIds nextSnapshot.nodes
      let selectedNodeIds :=
        if normalizedSelection ≠ [] then normalizedSelection
        else
          match nextSnapshot.nodes.head? with
          | some n => [n.id]
          | none => []
      let selectedAnnotationId :=
        if truthyId state.selectedAnnotationId ∧
            nextSnapshot.annotations.any (fun a => some a.id = state.selectedAnnotationId)
        then state.selectedAnnotationId
        else (nextSnapshot.annotations.head?).map (·.id)
      let selectedShapeId :=
        if truthyId state.selectedShapeId ∧
            nextSnapshot.shapes.any (fun s => some s.id = state.selectedShapeId)
        then state.selectedShapeId
        else (nextSnapshot.shapes.head?).map (·.id)
      { nodes := nextSnapshot.nodes
        annotations := nextSnapshot.annotations
        shapes := nextSnapshot.shapes
        selectedNodeIds := selectedNodeIds
        selectedAnnotationId := selectedAnnotationId
        selectedShapeId := selectedShapeId
        history := { past := past, future := restFuture } }
  | .importDoc nodes annotations shapes =>
    let importedNodes := nodes
    let importedAnnotations := annotations.getD []
    let importedShapes := shapes.getD []
    { nodes := importedNodes
      annotations := importedAnnotations
      shapes := importedShapes
      selectedNodeIds :=
        match importedNodes.head? with
        | some n => [n.id]
        | none => []
      selectedAnnotationId := (importedAnnotations.head?).map (·.id)
      selectedShapeId := (importedShapes.head?).map (·.id)
      history := { past := [], future := [] } }
  | .exportDoc => state
  | .setSelectedNodes nodeIds =>
    let selectedNodeIds := normalizeSelectedNodeIds nodeIds state.nodes
    if selectedNodeIds = state.selectedNodeIds then state
    else
      let hasSelection := selectedNodeIds ≠ []
      { state with
        selectedNodeIds := selectedNodeIds
        selectedAnnotationId := if hasSelection then none else state.selectedAnnotationId
        selectedShapeId := if hasSelection then none else state.selectedShapeId }
  | .toggleNodeSelection nodeId =>
    if ¬ state.nodes.any (fun n => n.id = nodeId) then state
    else
      let isSelected := nodeId ∈ state.selectedNodeIds
      let nextSelection :=
        if isSelected then state.selectedNodeIds.filter (fun id => ¬ id = nodeId)
        else state.selectedNodeIds ++ [nodeId]
      let selectedNodeIds := normalizeSelectedNodeIds nextSelection state.nodes
      if selectedNodeIds = state.selectedNodeIds then state
      else
        let hasSelection := selectedNodeIds ≠ []
        { state with
          selectedNodeIds := selectedNodeIds
          selectedAnnotationId := if hasSelection then none else state.selectedAnnotationId
          selectedShapeId := if hasSelection then none else state.selectedShapeId }
  | .clearSelectedNodes =>
    if state.selectedNodeIds = [] then state
    else { state with selectedNodeIds := [] }
  | .selectAnnot annotationId =>
    if truthyId annotationId ∧
        ¬ state.annotations.any (fun a => some a.id = annotationId) then state
    else
      { state with
        selectedAnnotationId := annotationId
        selectedNodeIds := if truthyId annotationId then [] else state.selectedNodeIds
        selectedShapeId := if truthyId annotationId then none else state.selectedShapeId }
  | .selectShape shapeId =>
    if truthyId shapeId ∧ ¬ state.shapes.any (fun s => some s.id = shapeId) then state
    else
      { state with
        selectedShapeId := shapeId
        selectedNodeIds := if truthyId shapeId then [] else state.selectedNodeIds
        selectedAnnotationId := if truthyId shapeId then none else state.selectedAnnotationId }

/-- The selection-only actions. -/
def isSelectionAction : MindMapAction → Bool
  | .setSelectedNodes _ | .toggleNodeSelection _ | .clearSelectedNodes
  | .selectAnnot _ | .selectShape _ => true
  | _ => false

/-- The mutating actions: add / update / move / delete of nodes, annotations
and shapes, and CLEAR_ALL. -/
def isMutatingAction : MindMapAction → Bool
  | .addNodes _ _ | .addNode _ | .updateNode _ _ | .updateNodes _
  | .deleteNode _ | .deleteNodes _ | .moveNode _ _ _ | .moveNodes _
  | .clearAll
  | .addAnnot _ | .updateAnnot _ _ | .moveAnnot _ _ _ | .deleteAnnot _
  | .addShape _ | .updateShape _ _ | .moveShape _ _ _ | .deleteShape _ => true
  | _ => false

theorem concat_getLast? {α : Type} (l : List α) (a : α) : (l ++ [a]).getLast? = some a := by
  simp

theorem concat_dropLast {α : Type} (l : List α) (a : α) : (l ++ [a]).dropLast = l := by
  simp

theorem selection_frame_aux (s : MindMapState) (a : MindMapAction)
    (hsel : isSelectionAction a = true) :
    (mindMapReducer s a).nodes = s.nodes ∧
    (mindMapReducer s a).annotations = s.annotations ∧
    (mindMapReducer s a).shapes = s.shapes ∧
    (mindMapReducer s a).history = s.history := by
  cases a <;> simp only [isSelectionAction, Bool.false_eq_true] at hsel <;>
    simp only [mindMapReducer] <;> split_ifs <;>
    exact ⟨rfl, rfl, rfl, rfl⟩

/-- C10: Every selection-only action (SET_SELECTED_NODES, TOGGLE_NODE_SELECTION,
CLEAR_SELECTED_NODES, SELECT_ANNOTATION, SELECT_SHAPE) leaves the nodes,
annotations and shapes collections and both history stacks exactly unchanged. -/
theorem selection_actions_frame (s : MindMapState) (a : MindMapAction)
    (hsel : isSelectionAction a = true) :
    (mindMapReducer s a).nodes = s.nodes ∧
    (mindMapReducer s a).annotations = s.annotations ∧
    (mindMapReducer s a).shapes = s.shapes ∧
    (mindMapReducer s a).history = s.history :=
  selection_frame_aux s a hsel

theorem selection_actions_frame_witness :
    (mindMapReducer initialState .clearSelectedNodes).nodes = initialState.nodes ∧
    (mindMapReducer initialState .clearSelectedNodes).annotations = initialState.annotations ∧
    (mindMapReducer initialState .clearSelectedNodes).shapes = initialState.shapes ∧
    (mindMapReducer initialState .clearSelectedNodes).history = initialState.history :=
  selection_actions_frame initialState .clearSelectedNodes rfl

theorem undo_restores (s : MindMapState) (snap : MindMapSnapshot)
    (h : s.history.past.getLast? = some snap) :
    cloneSnapshot (mindMapReducer s .undo) = snap ∧
    (mindMapReducer s .undo).history.future = cloneSnapshot s :: s.history.future := by
  constructor
  · simp only [mindMapReducer, h]
    rfl
  · simp only [mindMapReducer, h]

theorem redo_restores (s : MindMapState) (snap : MindMapSnapshot) (rest : List MindMapSnapshot)
    (h : s.history.future = snap :: rest) :
    cloneSnapshot (mindMapReducer s .redo) = snap := by
  simp only [mindMapReducer, h]
  rfl

/-- C1: if a mutating action pushed a history entry (its `past` stack is the
old one extended with a snapshot of the pre-action state), then UNDO restores
the nodes, annotations and shapes collections to their pre-action values, and
REDO after that UNDO restores the collections of the undone state. -/
theorem undo_redo_restore (s : MindMapState) (a : MindMapAction)
    (_hmut : isMutatingAction a = true)
    (hpush : (mindMapReducer s a).history.past = s.history.past ++ [cloneSnapshot s]) :
    cloneSnapshot (mindMapReducer (mindMapReducer s a) .undo) = cloneSnapshot s ∧
    cloneSnapshot (mindMapReducer (mindMapReducer (mindMapReducer s a) .undo) .redo) =
      cloneSnapshot (mindMapReducer s a) := by
  have h1 : (mindMapReducer s a).history.past.getLast? = some (cloneSnapshot s) := by
    rw [hpush]; exact concat_getLast? _ _
  have hu := undo_restores (mindMapReducer s a) (cloneSnapshot s) h1
  exact ⟨hu.1, redo_restores (mindMapReducer (mindMapReducer s a) .undo)
    (cloneSnapshot (mindMapReducer s a)) ((mindMapReducer s a).history.future) hu.2⟩

def childNode : MindMapNode :=
  { id := "n2", parentId := some "root", text := "Child", x := 160, y := 0,
    color := DEFAULT_NODE_COLOR, textSize := .medium }

theorem undo_redo_restore_witness :
    cloneSnapshot (mindMapReducer (mindMapReducer initialState (.addNode childNode)) .undo) =
        cloneSnapshot initialState ∧
    cloneSnapshot (mindMapReducer (mindMapReducer (mindMapReducer initialState
        (.addNode childNode)) .undo) .redo) =
      cloneSnapshot (mindMapReducer initialState (.addNode childNode)) :=
  undo_redo_restore initialState (.addNode childNode) rfl rfl

theorem moveNodes_eq_or_push (s : MindMapState) (updates : List (String × ℚ × ℚ)) :
    moveNodes s updates = s ∨
    (moveNodes s updates).history.past = s.history.past ++ [cloneSnapshot s] := by
  simp only [moveNodes]
  split_ifs <;> first | exact Or.inl rfl | exact Or.inr rfl

theorem updateNodes_eq_or_push (s : MindMapState) (updates : List (String × NodeUpdate)) :
    updateNodes s updates = s ∨
    (updateNodes s updates).history.past = s.history.past ++ [cloneSnapshot s] := by
  simp only [updateNodes]
  split_ifs <;> first | exact Or.inl rfl | exact Or.inr rfl

theorem deleteNodes_eq_or_push (s : MindMapState) (nodeIds : List String) :
    deleteNodes s nodeIds = s ∨
    (deleteNodes s nodeIds).history.past = s.history.past ++ [cloneSnapshot s] := by
  unfold deleteNodes
  cases removeNodesAndDescendants s.nodes nodeIds with
  | none => exact Or.inl rfl
  | some r => exact Or.inr rfl

/-- Every mutating action either leaves the state untouched (its no-op guard
fired) or pushes exactly one snapshot of the pre-action state onto `past`
(and clears `future`). -/
theorem mutating_eq_or_push (s : MindMapState) (a : MindMapAction)
    (hmut : isMutatingAction a = true) :
    mindMapReducer s a = s ∨
    (mindMapReducer s a).history.past = s.history.past ++ [cloneSnapshot s] := by
  cases a <;> simp only [isMutatingAction, Bool.false_eq_true] at hmut <;>
    simp only [mindMapReducer] <;>
    first
      | exact moveNodes_eq_or_push _ _
      | exact updateNodes_eq_or_push _ _
      | exact deleteNodes_eq_or_push _ _
      | (split_ifs <;> first | exact Or.inl rfl | exact Or.inr rfl)
      | exact Or.inr rfl

theorem map_eq_self_of {α : Type} (l : List α) (f : α → α) (h : ∀ x ∈ l, f x = x) :
    l.map f = l := by
  induction l with
  | nil => rfl
  | cons a t ih =>
    rw [List.map_cons, h a (List.mem_cons_self a t), ih (fun x hx => h x (List.mem_cons_of_mem a hx))]

theorem mget_singleton {α : Type} (k k' : String) (v : α) :
    mget [(k, v)] k' = if k = k' then some v else none := by
  by_cases h : k = k' <;> simp [mget, List.find?, h]

/-- `moveNodes` does not commit when every targeted node already sits at the
requested coordinates. -/
theorem moveNodes_noop (s : MindMapState) (updates : List (String × ℚ × ℚ))
    (h : ∀ n ∈ s.nodes, ∀ pos,
      mget (updates.foldl (fun m u => mset m u.1 u.2) []) n.id = some pos →
      n.x = pos.1 ∧ n.y = pos.2) :
    moveNodes s updates = s := by
  simp only [moveNodes]
  split_ifs with h1 h2 h3
  · rfl
  · rfl
  · rfl
  · exfalso
    apply h3
    apply map_eq_self_of
    intro n hn
    cases hm : mget (updates.foldl (fun m u => mset m u.1 u.2) []) n.id with
    | none => simp [hm]
    | some pos => simp [hm, (h n hn pos hm).1, (h n hn pos hm).2]

/-- `updateNodes` does not commit when applying every collected update to its
target node is the identity. -/
theorem updateNodes_noop (s : MindMapState) (updates : List (String × NodeUpdate))
    (h : ∀ n ∈ s.nodes, ∀ u,
      mget (updates.foldl
        (fun m e =>
          match mget m e.1 with
          | some existing => mset m e.1 (mergeNodeUpdate existing e.2)
          | none => mset m e.1 e.2) []) n.id = some u →
      applyNodeUpdate n u = n) :
    updateNodes s updates = s := by
  simp only [updateNodes]
  split_ifs with h1 h2 h3
  · rfl
  · rfl
  · rfl
  · exfalso
    apply h3
    apply map_eq_self_of
    intro n hn
    cases hm : mget (updates.foldl
        (fun m e =>
          match mget m e.1 with
          | some existing => mset m e.1 (mergeNodeUpdate existing e.2)
          | none => mset m e.1 e.2) []) n.id with
    | none => simp [hm]
    | some u => simp [hm, h n hn u hm]

/-- C3 (amended): every mutating call either fires a no-op guard, returning
the state unchanged, or pushes exactly one snapshot onto `past`; MOVE_NODE to
the node's current coordinates and a batch UPDATE_NODES whose fields all
equal the current values do not push; selection actions never touch history;
but the singular UPDATE_NODE action pushes a snapshot even when every
supplied field equals the node's current value. -/
theorem history_push_discipline :
    (∀ (s : MindMapState) (a : MindMapAction), isMutatingAction a = true →
      mindMapReducer s a ≠ s →
      (mindMapReducer s a).history.past = s.history.past ++ [cloneSnapshot s]) ∧
    (∀ (s : MindMapState) (nodeId : String) (x y : ℚ),
      (∀ n ∈ s.nodes, n.id = nodeId → n.x = x ∧ n.y = y) →
      mindMapReducer s (.moveNode nodeId x y) = s) ∧
    (∀ (s : MindMapState) (nodeId : String) (u : NodeUpdate),
      (∀ n ∈ s.nodes, n.id = nodeId → applyNodeUpdate n u = n) →
      mindMapReducer s (.updateNodes [(nodeId, u)]) = s) ∧
    (∀ (s : MindMapState) (a : MindMapAction), isSelectionAction a = true →
      (mindMapReducer s a).history = s.history) ∧
    (∀ (s : MindMapState) (nodeId : String) (u : NodeUpdate),
      (mindMapReducer s (.updateNode nodeId u)).history.past =
        s.history.past ++ [cloneSnapshot s]) := by
  refine ⟨?_, ?_, ?_, ?_, ?_⟩
  · intro s a hmut hne
    rcases mutating_eq_or_push s a hmut with h | h
    · exact absurd h hne
    · exact h
  · intro s nodeId x y h
    show moveNodes s [(nodeId, x, y)] = s
    apply moveNodes_noop
    intro n hn pos hm
    rw [show (List.foldl (fun m u => mset m u.1 u.2) [] [(nodeId, x, y)]) =
        [(nodeId, (x, y))] from rfl, mget_singleton] at hm
    by_cases hid : nodeId = n.id
    · rw [if_pos hid] at hm
      obtain rfl : (x, y) = pos := Option.some_injective _ hm
      exact h n hn hid.symm
    · rw [if_neg hid] at hm
      exact absurd hm (by simp)
  · intro s nodeId u h
    show updateNodes s [(nodeId, u)] = s
    apply updateNodes_noop
    intro n hn w hm
    have hfold : (List.foldl
        (fun m e =>
          match mget m e.1 with
          | some existing => mset m e.1 (mergeNodeUpdate existing e.2)
          | none => mset m e.1 e.2) [] [(nodeId, u)]) = [(nodeId, u)] := rfl
    rw [hfold, mget_singleton] at hm
    by_cases hid : nodeId = n.id
    · rw [if_pos hid] at hm
      obtain rfl : u = w := Option.some_injective _ hm
      exact h n hn hid.symm
    · rw [if_neg hid] at hm
      exact absurd hm (by simp)
  · intro s a hsel
    exact (selection_frame_aux s a hsel).2.2.2
  · intro s nodeId u
    rfl

theorem history_push_discipline_witness :
    (mindMapReducer initialState (.moveNode "root" 0 0)) = initialState ∧
    (mindMapReducer initialState (.addNode childNode)).history.past =
      initialState.history.past ++ [cloneSnapshot initialState] :=
  ⟨history_push_discipline.2.1 initialState "root" 0 0 (by decide),
   history_push_discipline.1 initialState (.addNode childNode) rfl (by decide)⟩

/-- C3 counterexample: dispatching UPDATE_NODE whose only supplied field
equals the node's current value still grows the `past` stack by one, contrary
to the claim that such a call leaves the past stack's length unchanged. -/
theorem update_node_identity_pushes :
    initialState.nodes = [resetRoot] ∧
    applyNodeUpdate resetRoot { text := some "Root" } = resetRoot ∧
    (mindMapReducer initialState (.updateNode "root" { text := some "Root" })).history.past.length =
      initialState.history.past.length + 1 :=
  ⟨rfl, rfl, rfl⟩

/-- Mutual exclusivity of the three selection domains: at most one of
(non-empty node selection, annotation selection, shape selection) holds. -/
def exclusiveSelection (s : MindMapState) : Prop :=
  (s.selectedNodeIds ≠ [] → s.selectedAnnotationId = none ∧ s.selectedShapeId = none) ∧
  (s.selectedAnnotationId ≠ none → s.selectedNodeIds = [] ∧ s.selectedShapeId = none) ∧
  (s.selectedShapeId ≠ none → s.selectedNodeIds = [] ∧ s.selectedAnnotationId = none)

def annotOne : MindMapAnnot :=
  { id := "a1", text := "Note", x := 0, y := 0, textSize := .medium }

/-- C5 counterexample: after adding an annotation, then a node, a single UNDO
restores a state in which the selection fallback picks both a node and an
annotation, so the three selection domains are not mutually exclusive in
every reachable state. -/
theorem selection_exclusivity_counterexample :
    ¬ exclusiveSelection
      (mindMapReducer (mindMapReducer (mindMapReducer initialState (.addAnnot annotOne))
        (.addNode childNode)) .undo) := by
  intro h
  have h1 : (mindMapReducer (mindMapReducer (mindMapReducer initialState (.addAnnot annotOne))
      (.addNode childNode)) .undo).selectedNodeIds = ["root"] := by decide
  have h2 : (mindMapReducer (mindMapReducer (mindMapReducer initialState (.addAnnot annotOne))
      (.addNode childNode)) .undo).selectedAnnotationId = some "a1" := by decide
  have := h.1 (by rw [h1]; exact List.cons_ne_nil _ _)
  rw [h2] at this
  exact Option.noConfusion this.1

/-- Empty-string ids are excluded: with a JS-falsy id string the reducer's
truthiness guards take the opposite branch. -/
def selectionIdOk : MindMapAction → Prop
  | .selectAnnot oid => oid ≠ some ""
  | .selectShape oid => oid ≠ some ""
  | _ => True

/-- C5 (amended): the selection actions themselves preserve mutual
exclusivity of the three selection domains (for ids that are not the JS-falsy
empty string), but exclusivity is not an invariant of all reachable states:
the UNDO/REDO selection fallback can select a node and an annotation
simultaneously. -/
theorem selection_actions_preserve_exclusivity (s : MindMapState) (a : MindMapAction)
    (hsel : isSelectionAction a = true) (hok : selectionIdOk a)
    (hexc : exclusiveSelection s) : exclusiveSelection (mindMapReducer s a) := by
  have hnn : ∀ oid : Option String, oid ≠ some "" → ¬ (truthyId oid = true) → oid = none := by
    intro oid h1 h2
    cases oid with
    | none => rfl
    | some v =>
      by_cases hv : v = ""
      · exact absurd (by rw [hv]) h1
      · exact absurd (by simp [truthyId, hv]) h2
  cases a <;> simp only [isSelectionAction, Bool.false_eq_true] at hsel
  case setSelectedNodes ids =>
    simp only [mindMapReducer]
    split_ifs with h1 h2
    · exact hexc
    · exact ⟨fun _ => ⟨rfl, rfl⟩, fun h => absurd rfl h, fun h => absurd rfl h⟩
    · exact ⟨fun hne => (h2 hne).elim,
             fun h => ⟨not_ne_iff.mp h2, (hexc.2.1 h).2⟩,
             fun h => ⟨not_ne_iff.mp h2, (hexc.2.2 h).2⟩⟩
  case toggleNodeSelection nodeId =>
    simp only [mindMapReducer]
    split_ifs <;>
      first
        | exact hexc
        | exact ⟨fun _ => ⟨rfl, rfl⟩, fun h => absurd rfl h, fun h => absurd rfl h⟩
        | exact ⟨fun hne => absurd hne (by assumption),
                 fun h => ⟨not_ne_iff.mp (by assumption), (hexc.2.1 h).2⟩,
                 fun h => ⟨not_ne_iff.mp (by assumption), (hexc.2.2 h).2⟩⟩
  case clearSelectedNodes =>
    simp only [mindMapReducer]
    split_ifs with h1
    · exact hexc
    · exact ⟨fun hne => absurd rfl hne,
             fun h => ⟨rfl, (hexc.2.1 h).2⟩,
             fun h => ⟨rfl, (hexc.2.2 h).2⟩⟩
  case selectAnnot oid =>
    simp only [mindMapReducer]
    split_ifs with h1 h2
    · exact hexc
    · exact ⟨fun h => absurd rfl h, fun _ => ⟨rfl, rfl⟩, fun h => absurd rfl h⟩
    · have ho : oid = none := hnn oid hok h2
      subst ho
      exact ⟨fun hne => ⟨rfl, (hexc.1 hne).2⟩,
             fun h => absurd rfl h,
             fun h => ⟨(hexc.2.2 h).1, rfl⟩⟩
  case selectShape oid =>
    simp only [mindMapReducer]
    split_ifs with h1 h2
    · exact hexc
    · exact ⟨fun h => absurd rfl h, fun h => absurd rfl h, fun _ => ⟨rfl, rfl⟩⟩
    · have ho : oid = none := hnn oid hok h2
      subst ho
      exact ⟨fun hne => ⟨(hexc.1 hne).1, rfl⟩,
             fun h => ⟨(hexc.2.1 h).1, rfl⟩,
             fun h => absurd rfl h⟩

theorem selection_actions_preserve_exclusivity_witness :
    exclusiveSelection (mindMapReducer initialState (.selectAnnot (some "a1"))) :=
  selection_actions_preserve_exclusivity initialState (.selectAnnot (some "a1")) rfl
    (by simp [selectionIdOk])
    ⟨fun _ => ⟨rfl, rfl⟩, fun h => absurd rfl h, fun h => absurd rfl h⟩

/-- One parent-derived child link: some node of the list has id `c` and
parent pointer `p`. -/
def childStep (nodes : List MindMapNode) (p c : String) : Prop :=
  ∃ n ∈ nodes, n.parentId = some p ∧ n.id = c

/-- Reachability by following child links derived from parent pointers. -/
def Reach (nodes : List MindMapNode) : String → String → Prop :=
  Relation.ReflTransGen (childStep nodes)

theorem mem_childrenOf {nodes : List MindMapNode} {id : String} {c : MindMapNode} :
    c ∈ childrenOf nodes id ↔ c ∈ nodes ∧ c.parentId = some id := by
  simp [childrenOf]

/-- Enough fuel remains to visit every id not yet in the accumulator. -/
def fuelInv (nodes : List MindMapNode) (fuel : ℕ) (acc : List String) : Prop :=
  ((nodes.map (·.id)).toFinset \ acc.toFinset).card < fuel

theorem fuelInv_mono_acc {nodes : List MindMapNode} {fuel : ℕ} {acc acc' : List String}
    (hsub : acc ⊆ acc') (h : fuelInv nodes fuel acc) : fuelInv nodes fuel acc' := by
  refine lt_of_le_of_lt (Finset.card_le_card ?_) h
  refine Finset.sdiff_subset_sdiff (le_refl _) ?_
  intro x hx
  exact List.mem_toFinset.mpr (hsub (List.mem_toFinset.mp hx))

theorem fuelInv_step {nodes : List MindMapNode} {fuel : ℕ} {acc : List String} {id : String}
    (h : fuelInv nodes (fuel + 1) acc) (hid : id ∈ nodes.map (·.id)) (hacc : ¬ id ∈ acc) :
    fuelInv nodes fuel (id :: acc) := by
  have hmem : id ∈ (nodes.map (·.id)).toFinset \ acc.toFinset :=
    Finset.mem_sdiff.mpr ⟨List.mem_toFinset.mpr hid, fun hc => hacc (List.mem_toFinset.mp hc)⟩
  have hpos : 0 < ((nodes.map (·.id)).toFinset \ acc.toFinset).card :=
    Finset.card_pos.mpr ⟨id, hmem⟩
  unfold fuelInv at h ⊢
  rw [List.toFinset_cons, Finset.sdiff_insert, Finset.card_erase_of_mem hmem]
  omega

theorem visit_subset (nodes : List MindMapNode) :
    ∀ (fuel : ℕ) (id : String) (acc : List String), acc ⊆ visit nodes fuel id acc := by
  intro fuel
  induction fuel with
  | zero => intro id acc x hx; exact hx
  | succ fuel ih =>
    intro id acc
    simp only [visit]
    split_ifs with h1 h2
    · exact fun x hx => hx
    · exact fun x hx => hx
    · have hfold : ∀ (cs : List MindMapNode) (A : List String),
          A ⊆ cs.foldl (fun a child => visit nodes fuel child.id a) A := by
        intro cs
        induction cs with
        | nil => intro A x hx; exact hx
        | cons c t iht =>
          intro A
          exact (ih c.id A).trans (iht (visit nodes fuel c.id A))
      exact fun x hx => hfold (childrenOf nodes id) (id :: acc) (List.mem_cons_of_mem id hx)

theorem foldl_visit_subset (nodes : List MindMapNode) (fuel : ℕ) (cs : List MindMapNode)
    (A : List String) : A ⊆ cs.foldl (fun a child => visit nodes fuel child.id a) A := by
  induction cs generalizing A with
  | nil => exact fun x hx => hx
  | cons c t iht => exact (visit_subset nodes fuel c.id A).trans (iht (visit nodes fuel c.id A))

/-- Present ids have a `find?` witness. -/
theorem find?_id_some (nodes : List MindMapNode) (id : String)
    (h : ∃ n ∈ nodes, n.id = id) : ∃ n₀, nodes.find? (fun n => n.id = id) = some n₀ := by
  induction nodes with
  | nil =>
    obtain ⟨n, hn, _⟩ := h
    exact absurd hn (List.not_mem_nil n)
  | cons a t ih =>
    by_cases ha : a.id = id
    · exact ⟨a, List.find?_cons_of_pos _ (by simp [ha])⟩
    · obtain ⟨n, hn, hid⟩ := h
      rcases List.mem_cons.mp hn with rfl | hmem
      · exact absurd hid ha
      · obtain ⟨n₀, h₀⟩ := ih ⟨n, hmem, hid⟩
        exact ⟨n₀, by rw [List.find?_cons_of_neg _ (by simp [ha]), h₀]⟩

theorem visit_adds_root (nodes : List MindMapNode) :
    ∀ (fuel : ℕ) (id : String) (acc : List String), fuelInv nodes fuel acc →
      id ∈ nodes.map (·.id) → id ∈ visit nodes fuel id acc := by
  intro fuel id acc hfuel hid
  cases fuel with
  | zero => exact absurd hfuel (by simp [fuelInv])
  | succ fuel =>
    simp only [visit]
    split_ifs with h1 h2
    · exact h1
    · exfalso
      obtain ⟨n, hn, hnid⟩ := List.mem_map.mp hid
      obtain ⟨n₀, h₀⟩ := find?_id_some nodes id ⟨n, hn, hnid⟩
      rw [h₀] at h2
      simp at h2
    · exact foldl_visit_subset nodes fuel (childrenOf nodes id) (id :: acc)
        (List.mem_cons_self id acc)

theorem visit_sound (nodes : List MindMapNode) :
    ∀ (fuel : ℕ) (id : String) (acc : List String) (x : String),
      x ∈ visit nodes fuel id acc →
      x ∈ acc ∨ (Reach nodes id x ∧ x ∈ nodes.map (·.id)) := by
  intro fuel
  induction fuel with
  | zero => intro id acc x hx; exact Or.inl hx
  | succ fuel ih =>
    intro id acc x
    simp only [visit]
    split_ifs with h1 h2
    · exact Or.inl
    · exact Or.inl
    · intro hx
      have hidmem : id ∈ nodes.map (·.id) := by
        by_contra hno
        apply h2
        cases hfind : nodes.find? (fun n => n.id = id) with
        | none => rfl
        | some n =>
          exfalso
          have := List.find?_some hfind
          have hmem := List.mem_of_find?_eq_some hfind
          exact hno (List.mem_map.mpr ⟨n, hmem, of_decide_eq_true this⟩)
      have hfold : ∀ (cs : List MindMapNode) (A : List String),
          (∀ c ∈ cs, c ∈ nodes ∧ c.parentId = some id) →
          (∀ y ∈ A, y ∈ acc ∨ (Reach nodes id y ∧ y ∈ nodes.map (·.id))) →
          ∀ y ∈ cs.foldl (fun a child => visit nodes fuel child.id a) A,
            y ∈ acc ∨ (Reach nodes id y ∧ y ∈ nodes.map (·.id)) := by
        intro cs
        induction cs with
        | nil => intro A _ hA y hy; exact hA y hy
        | cons c t iht =>
          intro A hcs hA y hy
          refine iht (visit nodes fuel c.id A)
            (fun d hd => hcs d (List.mem_cons_of_mem c hd)) ?_ y hy
          intro z hz
          rcases ih c.id A z hz with hzA | ⟨hreach, hzid⟩
          · exact hA z hzA
          · refine Or.inr ⟨?_, hzid⟩
            obtain ⟨hcn, hcp⟩ := hcs c (List.mem_cons_self c t)
            exact Relation.ReflTransGen.head ⟨c, hcn, hcp, rfl⟩ hreach
      refine hfold (childrenOf nodes id) (id :: acc) ?_ ?_ x hx
      · intro c hc
        exact mem_childrenOf.mp hc
      · intro y hy
        rcases List.mem_cons.mp hy with rfl | hyacc
        · exact Or.inr ⟨Relation.ReflTransGen.refl, hidmem⟩
        · exact Or.inl hyacc

theorem visit_closed (nodes : List MindMapNode) :
    ∀ (fuel : ℕ) (id : String) (acc : List String), fuelInv nodes fuel acc →
      ∀ x ∈ visit nodes fuel id acc, ¬ x ∈ acc →
        ∀ c ∈ childrenOf nodes x, c.id ∈ visit nodes fuel id acc := by
  intro fuel
  induction fuel with
  | zero =>
    intro id acc hfuel
    exact absurd hfuel (by simp [fuelInv])
  | succ fuel ih =>
    intro id acc hfuel
    simp only [visit]
    split_ifs with h1 h2
    · intro x hx hxacc
      exact absurd hx hxacc
    · intro x hx hxacc
      exact absurd hx hxacc
    · have hidmem : id ∈ nodes.map (·.id) := by
        by_contra hno
        apply h2
        cases hfind : nodes.find? (fun n => n.id = id) with
        | none => rfl
        | some n =>
          exfalso
          have := List.find?_some hfind
          have hmem := List.mem_of_find?_eq_some hfind
          exact hno (List.mem_map.mpr ⟨n, hmem, of_decide_eq_true this⟩)
      have hfuel' : fuelInv nodes fuel (id :: acc) := fuelInv_step hfuel hidmem h1
      -- fold specification: the accumulator stays closed for newly added ids
      -- other than `id`, keeps enough fuel, grows monotonically, and ends up
      -- containing every child processed so far
      have hfold : ∀ (cs : List MindMapNode) (A : List String),
          (∀ c ∈ cs, c ∈ nodes) →
          fuelInv nodes fuel A →
          (∀ y ∈ A, ¬ y ∈ acc → y ≠ id → ∀ c ∈ childrenOf nodes y,
            c.id ∈ A) →
          (A ⊆ cs.foldl (fun a child => visit nodes fuel child.id a) A) ∧
          fuelInv nodes fuel (cs.foldl (fun a child => visit nodes fuel child.id a) A) ∧
          (∀ y ∈ cs.foldl (fun a child => visit nodes fuel child.id a) A,
            ¬ y ∈ acc → y ≠ id → ∀ c ∈ childrenOf nodes y,
              c.id ∈ cs.foldl (fun a child => visit nodes fuel child.id a) A) ∧
          (∀ c ∈ cs, c.id ∈ cs.foldl (fun a child => visit nodes fuel child.id a) A) := by
        intro cs
        induction cs with
        | nil =>
          intro A _ hfA hclosed
          exact ⟨fun x hx => hx, hfA, fun y hy => hclosed y hy, fun c hc => absurd hc (by simp)⟩
        | cons c t iht =>
          intro A hcs hfA hclosed
          have hsubA : A ⊆ visit nodes fuel c.id A := visit_subset nodes fuel c.id A
          have hfA' : fuelInv nodes fuel (visit nodes fuel c.id A) := fuelInv_mono_acc hsubA hfA
          have hcidA : c.id ∈ visit nodes fuel c.id A := by
            by_cases hcA : c.id ∈ A
            · exact hsubA hcA
            · exact visit_adds_root nodes fuel c.id A hfA
                (List.mem_map.mpr ⟨c, hcs c (List.mem_cons_self c t), rfl⟩)
          have hclosed' : ∀ y ∈ visit nodes fuel c.id A, ¬ y ∈ acc → y ≠ id →
              ∀ d ∈ childrenOf nodes y, d.id ∈ visit nodes fuel c.id A := by
            intro y hy hyacc hyid d hd
            by_cases hyA : y ∈ A
            · exact hsubA (hclosed y hyA hyacc hyid d hd)
            · exact ih c.id A hfA y hy hyA d hd
          obtain ⟨hs, hf, hc3, hc4⟩ := iht (visit nodes fuel c.id A)
            (fun d hd => hcs d (List.mem_cons_of_mem c hd)) hfA' hclosed'
          refine ⟨hsubA.trans hs, hf, hc3, ?_⟩
          intro d hd
          rcases List.mem_cons.mp hd with rfl | hdt
          · exact hs hcidA
          · exact hc4 d hdt
      have hstart : ∀ y ∈ (id :: acc), ¬ y ∈ acc → y ≠ id →
          ∀ c ∈ childrenOf nodes y, c.id ∈ (id :: acc) := by
        intro y hy hyacc hyid
        rcases List.mem_cons.mp hy with rfl | hyacc'
        · exact absurd rfl hyid
        · exact absurd hyacc' hyacc
      have hcs : ∀ c ∈ childrenOf nodes id, c ∈ nodes := fun c hc => (mem_childrenOf.mp hc).1
      obtain ⟨hs, _, hc3, hc4⟩ := hfold (childrenOf nodes id) (id :: acc) hcs hfuel' hstart
      intro x hx hxacc
      by_cases hxid : x = id
      · subst hxid
        exact fun c hc => hc4 c hc
      · exact hc3 x hx hxacc hxid

/-- C2: for every node list and every node N in it, DELETE_NODE N removes
from the node list exactly the ids reachable from N.id by following child
links derived from parent pointers ({N} together with all its descendants),
and removes no other node: the remaining list is the original list filtered
by non-membership in that removal set. -/
theorem delete_cascade_exact (s : MindMapState) (N : MindMapNode) (hN : N ∈ s.nodes) :
    ∃ r, removeNodesAndDescendants s.nodes [N.id] = some r ∧
      N.id ∈ r.removedIds ∧
      (∀ x, x ∈ r.removedIds ↔ (Reach s.nodes N.id x ∧ x ∈ s.nodes.map (·.id))) ∧
      (mindMapReducer s (.deleteNode N.id)).nodes =
        s.nodes.filter (fun n => ¬ n.id ∈ r.removedIds) := by
  have hfuel0 : fuelInv s.nodes (s.nodes.length + 1) [] := by
    unfold fuelInv
    have h1 : (s.nodes.map (·.id)).toFinset.card ≤ (s.nodes.map (·.id)).length :=
      List.toFinset_card_le _
    rw [List.length_map] at h1
    simp only [List.toFinset_nil, Finset.sdiff_empty]
    omega
  have hNid : N.id ∈ s.nodes.map (·.id) := List.mem_map.mpr ⟨N, hN, rfl⟩
  obtain ⟨n₀, hfind⟩ := find?_id_some s.nodes N.id ⟨N, hN, rfl⟩
  have hmemN : N.id ∈ visit s.nodes (s.nodes.length + 1) N.id [] :=
    visit_adds_root s.nodes _ N.id [] hfuel0 hNid
  have hr : removeNodesAndDescendants s.nodes [N.id] = some
      { nextNodes := s.nodes.filter
          (fun n => ¬ n.id ∈ visit s.nodes (s.nodes.length + 1) N.id [])
        removedIds := visit s.nodes (s.nodes.length + 1) N.id []
        removalRoots := [n₀] } := by
    simp only [removeNodesAndDescendants, List.foldl_cons, List.foldl_nil,
      List.not_mem_nil, if_false, hfind, List.nil_append]
    rw [if_neg (by simp), if_neg (List.ne_nil_of_mem hmemN)]
  have haux : ∀ x, Reach s.nodes N.id x → x ∈ visit s.nodes (s.nodes.length + 1) N.id [] := by
    intro x hreach
    induction hreach with
    | refl => exact hmemN
    | tail hab hbc ihab =>
      obtain ⟨n, hn, hp, hid⟩ := hbc
      have hchild : n ∈ childrenOf s.nodes _ := mem_childrenOf.mpr ⟨hn, hp⟩
      have := visit_closed s.nodes _ N.id [] hfuel0 _ ihab (List.not_mem_nil _) n hchild
      rwa [hid] at this
  refine ⟨_, hr, hmemN, ?_, ?_⟩
  · intro x
    constructor
    · intro hx
      rcases visit_sound s.nodes _ N.id [] x hx with hempty | hgood
      · exact absurd hempty (List.not_mem_nil x)
      · exact hgood
    · rintro ⟨hreach, _⟩
      exact haux x hreach
  · simp only [mindMapReducer, deleteNodes, hr]
    rfl

theorem delete_cascade_exact_witness :
    ∃ r, removeNodesAndDescendants initialState.nodes [resetRoot.id] = some r ∧
      resetRoot.id ∈ r.removedIds ∧
      (∀ x, x ∈ r.removedIds ↔
        (Reach initialState.nodes resetRoot.id x ∧ x ∈ initialState.nodes.map (·.id))) ∧
      (mindMapReducer initialState (.deleteNode resetRoot.id)).nodes =
        initialState.nodes.filter (fun n => ¬ n.id ∈ r.removedIds) :=
  delete_cascade_exact initialState resetRoot (by decide)

def MIN_ZOOM : ℚ := 0.25

def MAX_ZOOM : ℚ := 2.5

def AUTO_CENTER_PADDING : ℚ := 160

structure ViewTransform where
  scale : ℚ
  offsetX : ℚ
  offsetY : ℚ
deriving DecidableEq

structure CanvasSize where
  width : ℚ
  height : ℚ
deriving DecidableEq

def clamp (value mn mx : ℚ) : ℚ := min (max value mn) mx

/-- `adjustZoom` from the canvas controller: clamp the new scale; if the
clamp leaves the scale unchanged, no-op; with a pivot, solve for offsets so
the world point under the pivot stays fixed; without one, keep the current
world-space view center fixed. -/
def adjustZoom (size : CanvasSize) (previous : ViewTransform) (factor : ℚ)
    (pivot : Option (ℚ × ℚ)) : ViewTransform :=
  let nextScale := clamp (previous.scale * factor) MIN_ZOOM MAX_ZOOM
  if nextScale = previous.scale then previous
  else
    match pivot with
    | some (screenX, screenY) =>
      let centerX := size.width / 2
      let centerY := size.height / 2
      let worldX := (screenX - centerX - previous.offsetX) / previous.scale
      let worldY := (screenY - centerY - previous.offsetY) / previous.scale
      { scale := nextScale
        offsetX := screenX - centerX - nextScale * worldX
        offsetY := screenY - centerY - nextScale * worldY }
    | none =>
      let worldCenterX := -previous.offsetX / previous.scale
      let worldCenterY := -previous.offsetY / previous.scale
      { scale := nextScale
        offsetX := -worldCenterX * nextScale
        offsetY := -worldCenterY * nextScale }

/-- `getScenePointFromCanvas`: screen-to-world conversion (subtract half the
viewport dimensions and the offsets, divide by scale). -/
def getScenePointFromCanvas (size : CanvasSize) (view : ViewTransform) (x y : ℚ) : ℚ × ℚ :=
  let centerX := size.width / 2
  let centerY := size.height / 2
  ((x - centerX - view.offsetX) / view.scale, (y - centerY - view.offsetY) / view.scale)

/-- `calculateFitView`.  The source folds min/max from ±Infinity over all
nodes and rejects non-finite results; over ℚ this is a fold seeded with the
first node's extents (the `Number.isFinite` guard never fires for a
non-empty node list). -/
def calculateFitView (nodes : List MindMapNode) (size : CanvasSize)
    (getNodeRadius : MindMapNode → ℚ) : Option ViewTransform :=
  if nodes.length = 0 ∨ size.width = 0 ∨ size.height = 0 then none
  else
    match nodes with
    | [] => none
    | n :: rest =>
      let minX := rest.foldl (fun m nd => min m (nd.x - getNodeRadius nd)) (n.x - getNodeRadius n)
      let maxX := rest.foldl (fun m nd => max m (nd.x + getNodeRadius nd)) (n.x + getNodeRadius n)
      let minY := rest.foldl (fun m nd => min m (nd.y - getNodeRadius nd)) (n.y - getNodeRadius n)
      let maxY := rest.foldl (fun m nd => max m (nd.y + getNodeRadius nd)) (n.y + getNodeRadius n)
      let paddedMinX := minX - AUTO_CENTER_PADDING
      let paddedMaxX := maxX + AUTO_CENTER_PADDING
      let paddedMinY := minY - AUTO_CENTER_PADDING
      let paddedMaxY := maxY + AUTO_CENTER_PADDING
      let contentWidth := max (paddedMaxX - paddedMinX) 1
      let contentHeight := max (paddedMaxY - paddedMinY) 1
      let scaleX := size.width / contentWidth
      let scaleY := size.height / contentHeight
      let nextScale := clamp (min scaleX scaleY) MIN_ZOOM MAX_ZOOM
      let centerX := (paddedMinX + paddedMaxX) / 2
      let centerY := (paddedMinY + paddedMaxY) / 2
      some { scale := nextScale, offsetX := -centerX * nextScale, offsetY := -centerY * nextScale }

theorem clamp_mem (v mn mx : ℚ) (h : mn ≤ mx) : mn ≤ clamp v mn mx ∧ clamp v mn mx ≤ mx :=
  ⟨le_min (le_max_right v mn) h, min_le_right _ _⟩

theorem zoom_bounds : (0 : ℚ) < MIN_ZOOM ∧ MIN_ZOOM ≤ MAX_ZOOM := by
  constructor <;> norm_num [MIN_ZOOM, MAX_ZOOM]

/-- C7: for a view transform with scale in the zoom range, if
`adjustZoom(factor, pivot)` changes the scale, then the world point under the
pivot computed by `getScenePointFromCanvas` is the same before and after the
zoom (exactly, in rational arithmetic). -/
theorem zoom_pivot_fixed (size : CanvasSize) (previous : ViewTransform) (factor : ℚ)
    (px py : ℚ) (hlo : MIN_ZOOM ≤ previous.scale) (_hhi : previous.scale ≤ MAX_ZOOM)
    (hchange : (adjustZoom size previous factor (some (px, py))).scale ≠ previous.scale) :
    getScenePointFromCanvas size (adjustZoom size previous factor (some (px, py))) px py =
      getScenePointFromCanvas size previous px py := by
  have hprev : previous.scale ≠ 0 :=
    ne_of_gt (lt_of_lt_of_le zoom_bounds.1 hlo)
  have hnext : clamp (previous.scale * factor) MIN_ZOOM MAX_ZOOM ≠ 0 :=
    ne_of_gt (lt_of_lt_of_le zoom_bounds.1
      (clamp_mem (previous.scale * factor) MIN_ZOOM MAX_ZOOM zoom_bounds.2).1)
  by_cases heq : clamp (previous.scale * factor) MIN_ZOOM MAX_ZOOM = previous.scale
  · exfalso
    apply hchange
    simp [adjustZoom, heq]
  · simp only [adjustZoom, if_neg heq, getScenePointFromCanvas]
    refine Prod.ext ?_ ?_ <;> dsimp only <;> field_simp <;> ring

theorem zoom_pivot_fixed_witness :
    getScenePointFromCanvas ⟨800, 600⟩
        (adjustZoom ⟨800, 600⟩ ⟨1, 0, 0⟩ 2 (some (100, 50))) 100 50 =
      getScenePointFromCanvas ⟨800, 600⟩ ⟨1, 0, 0⟩ 100 50 :=
  zoom_pivot_fixed ⟨800, 600⟩ ⟨1, 0, 0⟩ 2 100 50 (by norm_num [MIN_ZOOM])
    (by norm_num [MAX_ZOOM]) (by norm_num [adjustZoom, clamp, MIN_ZOOM, MAX_ZOOM])

theorem adjustZoom_scale_mem (size : CanvasSize) (v : ViewTransform) (factor : ℚ)
    (pivot : Option (ℚ × ℚ)) (hlo : MIN_ZOOM ≤ v.scale) (hhi : v.scale ≤ MAX_ZOOM) :
    MIN_ZOOM ≤ (adjustZoom size v factor pivot).scale ∧
      (adjustZoom size v factor pivot).scale ≤ MAX_ZOOM := by
  simp only [adjustZoom]
  split_ifs with heq
  · exact ⟨hlo, hhi⟩
  · cases pivot with
    | none => exact clamp_mem _ _ _ zoom_bounds.2
    | some p =>
      cases p with
      | mk a b => exact clamp_mem _ _ _ zoom_bounds.2

/-- C8: starting from any view transform with scale in [0.25, 2.5], any
sequence of `adjustZoom` applications (with or without pivots) keeps the
scale inside [0.25, 2.5], and `calculateFitView` only produces scales inside
[0.25, 2.5]. -/
theorem zoom_scale_clamped :
    (∀ (size : CanvasSize) (v : ViewTransform) (steps : List (ℚ × Option (ℚ × ℚ))),
      MIN_ZOOM ≤ v.scale → v.scale ≤ MAX_ZOOM →
      (∀ st ∈ steps, 0 < st.1) →
      MIN_ZOOM ≤ (steps.foldl (fun t st => adjustZoom size t st.1 st.2) v).scale ∧
        (steps.foldl (fun t st => adjustZoom size t st.1 st.2) v).scale ≤ MAX_ZOOM) ∧
    (∀ (nodes : List MindMapNode) (size : CanvasSize) (radius : MindMapNode → ℚ)
        (t : ViewTransform),
      calculateFitView nodes size radius = some t →
      MIN_ZOOM ≤ t.scale ∧ t.scale ≤ MAX_ZOOM) := by
  constructor
  · intro size v steps
    induction steps generalizing v with
    | nil => intro hlo hhi _; exact ⟨hlo, hhi⟩
    | cons st rest ih =>
      intro hlo hhi hpos
      have h1 := adjustZoom_scale_mem size v st.1 st.2 hlo hhi
      exact ih (adjustZoom size v st.1 st.2) h1.1 h1.2
        (fun u hu => hpos u (List.mem_cons_of_mem st hu))
  · intro nodes size radius t h
    simp only [calculateFitView] at h
    split_ifs at h with h1
    cases nodes with
    | nil => exact absurd h (by simp)
    | cons n rest =>
      have ht := (Option.some.inj h).symm
      rw [ht]
      exact clamp_mem _ _ _ zoom_bounds.2

theorem zoom_scale_clamped_witness :
    (MIN_ZOOM ≤ (([((2 : ℚ), (none : Option (ℚ × ℚ))), (3, some (10, 20))].foldl
        (fun t st => adjustZoom ⟨800, 600⟩ t st.1 st.2) ⟨1, 0, 0⟩)).scale ∧
      (([((2 : ℚ), (none : Option (ℚ × ℚ))), (3, some (10, 20))].foldl
        (fun t st => adjustZoom ⟨800, 600⟩ t st.1 st.2) ⟨1, 0, 0⟩)).scale ≤ MAX_ZOOM) ∧
    (MIN_ZOOM ≤ ViewTransform.scale ⟨3/2, 0, 0⟩ ∧ ViewTransform.scale ⟨3/2, 0, 0⟩ ≤ MAX_ZOOM) :=
  ⟨zoom_scale_clamped.1 ⟨800, 600⟩ ⟨1, 0, 0⟩ [((2 : ℚ), none), (3, some (10, 20))]
      (by norm_num [MIN_ZOOM]) (by norm_num [MAX_ZOOM]) (by decide),
   zoom_scale_clamped.2 [resetRoot] ⟨800, 600⟩ (fun _ => 40) ⟨3/2, 0, 0⟩
     (by norm_num [calculateFitView, resetRoot, clamp, MIN_ZOOM, MAX_ZOOM, AUTO_CENTER_PADDING])⟩

/-- JSON values as produced by `JSON.parse` (numbers are finite, so ℚ). -/
inductive JVal where
  | null
  | bool (b : Bool)
  | num (q : ℚ)
  | str (s : String)
  | arr (items : List JVal)
  | obj (fields : List (String × JVal))

/-- Property access `value[key]` on a parsed JSON value: `none` plays the
role of `undefined`; on duplicate keys `JSON.parse` keeps the last one. -/
def jget (v : JVal) (k : String) : Option JVal :=
  match v with
  | .obj fields => ((fields.filter (fun p => p.1 = k)).getLast?).map (·.2)
  | _ => none

/-- `normalizeTextSize` applied to an arbitrary JSON field. -/
def normalizeTextSizeJ : Option JVal → TextSize
  | some (.str "small") => .small
  | some (.str "medium") => .medium
  | some (.str "large") => .large
  | _ => .medium

/-- Per-item filter-and-fill of `sanitizeImportedNodes`: the source first
filters on the field type checks and then maps in the `color` default and
the normalized `textSize`; both steps are fused into one partial parse. -/
def parseImportedNode (item : JVal) : Option MindMapNode :=
  match item with
  | .obj _ =>
    match jget item "id", jget item "parentId", jget item "text",
        jget item "x", jget item "y" with
    | some (.str id), some pid, some (.str text), some (.num x), some (.num y) =>
      match pid with
      | .str p =>
        some { id := id, parentId := some p, text := text, x := x, y := y,
               color := match jget item "color" with
                 | some (.str c) => c
                 | _ => DEFAULT_NODE_COLOR,
               textSize := normalizeTextSizeJ (jget item "textSize") }
      | .null =>
        some { id := id, parentId := none, text := text, x := x, y := y,
               color := match jget item "color" with
                 | some (.str c) => c
                 | _ => DEFAULT_NODE_COLOR,
               textSize := normalizeTextSizeJ (jget item "textSize") }
      | _ => none
    | _, _, _, _, _ => none
  | _ => none

/-- `sanitizeImportedNodes`: `null` unless the value is an array with at
least one valid node entry. -/
def sanitizeImportedNodes (value : Option JVal) : Option (List MindMapNode) :=
  match value with
  | some (.arr items) =>
    let sanitized := items.filterMap parseImportedNode
    if sanitized = [] then none else some sanitized
  | _ => none

def parseImportedAnnot (item : JVal) : Option MindMapAnnot :=
  match item with
  | .obj _ =>
    match jget item "id", jget item "text", jget item "x", jget item "y" with
    | some (.str id), some (.str text), some (.num x), some (.num y) =>
      some { id := id, text := text, x := x, y := y,
             textSize := normalizeTextSizeJ (jget item "textSize") }
    | _, _, _, _ => none
  | _ => none

/-- `sanitizeImportedAnnotations`: empty list unless the value is an array. -/
def sanitizeImportedAnnotations (value : Option JVal) : List MindMapAnnot :=
  match value with
  | some (.arr items) => items.filterMap parseImportedAnnot
  | _ => []

def RING_MIN_RADIUS : ℚ := 48

def RING_DEFAULT_COLOR : String := "#38bdf8"

def ELLIPSE_MIN_RADIUS_X : ℚ := 60

def ELLIPSE_MIN_RADIUS_Y : ℚ := 45

def ELLIPSE_DEFAULT_COLOR : String := "#a855f7"

def RECTANGLE_MIN_WIDTH : ℚ := 120

def RECTANGLE_MIN_HEIGHT : ℚ := 80

def RECTANGLE_DEFAULT_COLOR : String := "#34d399"

def ARROW_MIN_WIDTH : ℚ := 36

def ARROW_MIN_HEIGHT : ℚ := 6

def ARROW_MIN_THICKNESS : ℚ := 2

def ARROW_DEFAULT_COLOR : String := "#f97316"

def ARROW_MIN_SHAFT_HALF_HEIGHT : ℚ := 1.2

/-- Head-to-shaft proportion constant of the arrow geometry. -/
def ARROW_HEAD_BASE_FACTOR : ℚ := 2.8

def ARROW_HEAD_BASE_PADDING : ℚ := 6

def ARROW_MIN_HEAD_HALF_HEIGHT : ℚ := 7

def LINE_MIN_LENGTH : ℚ := 20

def LINE_MIN_THICKNESS : ℚ := 1.2

def LINE_DEFAULT_COLOR : String := "#22d3ee"

/-- `enforceArrowHeadHeights`: (headHalfHeight, shaftHalfHeight). -/
def enforceArrowHeadHeights (rawHalfHeight halfThickness : ℚ) : ℚ × ℚ :=
  let limitedShaftHalfHeight := max ARROW_MIN_SHAFT_HALF_HEIGHT (min halfThickness rawHalfHeight)
  let headHalfHeight :=
    max (max (max rawHalfHeight (limitedShaftHalfHeight * ARROW_HEAD_BASE_FACTOR))
      (limitedShaftHalfHeight + ARROW_HEAD_BASE_PADDING)) ARROW_MIN_HEAD_HALF_HEIGHT
  let shaftHalfHeight := max ARROW_MIN_SHAFT_HALF_HEIGHT (min halfThickness headHalfHeight)
  (headHalfHeight, shaftHalfHeight)

/-- Per-item body of the `sanitizeImportedShapes` reduce: `none` when the
item is skipped.  (The source's ellipse branch lacks an early `return
accumulator` after its push, which is behavior-neutral because the later
branches test other `kind` values.) -/
def parseImportedShape (item : JVal) : Option MindMapShape :=
  match item with
  | .obj _ =>
    match jget item "kind" with
    | some (.str "ring") =>
      match jget item "id", jget item "x", jget item "y",
          jget item "radius", jget item "thickness" with
      | some (.str id), some (.num x), some (.num y), some (.num r), some (.num t) =>
        let radius := max RING_MIN_RADIUS |r|
        let thickness := max 1 |t|
        let color := match jget item "color" with
          | some (.str c) => c
          | _ => RING_DEFAULT_COLOR
        some (.ring id x y radius (min thickness (radius * 1.5)) color)
      | _, _, _, _, _ => none
    | some (.str "ellipse") =>
      match jget item "id", jget item "x", jget item "y",
          jget item "radiusX", jget item "radiusY", jget item "thickness" with
      | some (.str id), some (.num x), some (.num y), some (.num rx),
          some (.num ry), some (.num t) =>
        let radiusX := max ELLIPSE_MIN_RADIUS_X |rx|
        let radiusY := max ELLIPSE_MIN_RADIUS_Y |ry|
        let thickness := max 1 |t|
        let color := match jget item "color" with
          | some (.str c) => c
          | _ => ELLIPSE_DEFAULT_COLOR
        let maxThickness := min radiusX radiusY
        some (.ellipse id x y radiusX radiusY (min thickness maxThickness) color)
      | _, _, _, _, _, _ => none
    | some (.str "rectangle") =>
      match jget item "id", jget item "x", jget item "y",
          jget item "width", jget item "height", jget item "thickness" with
      | some (.str id), some (.num x), some (.num y), some (.num w),
          some (.num h), some (.num t) =>
        let width := max RECTANGLE_MIN_WIDTH |w|
        let height := max RECTANGLE_MIN_HEIGHT |h|
        let thickness := max 1 |t|
        let color := match jget item "color" with
          | some (.str c) => c
          | _ => RECTANGLE_DEFAULT_COLOR
        let maxThickness := min width height / 2
        some (.rectangle id x y width height (min thickness maxThickness) color)
      | _, _, _, _, _, _ => none
    | some (.str "arrow") =>
      match jget item "id", jget item "x", jget item "y",
          jget item "width", jget item "height", jget item "thickness" with
      | some (.str id), some (.num x), some (.num y), some (.num w),
          some (.num h), some (.num t) =>
        let width := max ARROW_MIN_WIDTH |w|
        let rawHeight := max ARROW_MIN_HEIGHT |h|
        let thickness := max ARROW_MIN_THICKNESS |t|
        let color := match jget item "color" with
          | some (.str c) => c
          | _ => ARROW_DEFAULT_COLOR
        let angle := match jget item "angle" with
          | some (.num a) => a
          | _ => 0
        let halfThickness := max (thickness / 2) (ARROW_MIN_THICKNESS / 2)
        let headHalfHeight := (enforceArrowHeadHeights (rawHeight / 2) halfThickness).1
        let height := headHalfHeight * 2
        let normalizedThickness := max ARROW_MIN_THICKNESS (min thickness height)
        some (.arrow id x y width height normalizedThickness angle color)
      | _, _, _, _, _, _ => none
    | some (.str "line") =>
      match jget item "id", jget item "x", jget item "y",
          jget item "length", jget item "thickness" with
      | some (.str id), some (.num x), some (.num y), some (.num l), some (.num t) =>
        let len := max LINE_MIN_LENGTH |l|
        let thickness := max LINE_MIN_THICKNESS |t|
        let color := match jget item "color" with
          | some (.str c) => c
          | _ => LINE_DEFAULT_COLOR
        let angle := match jget item "angle" with
          | some (.num a) => a
          | _ => 0
        some (.line id x y len thickness angle color)
      | _, _, _, _, _ => none
    | _ => none
  | _ => none

/-- `sanitizeImportedShapes`: empty list unless the value is an array; the
reduce pushes each successfully parsed (clamped) shape and skips the rest. -/
def sanitizeImportedShapes (value : Option JVal) : List MindMapShape :=
  match value with
  | some (.arr items) =>
    items.foldl (fun accumulator item =>
      match parseImportedShape item with
      | some shape => accumulator ++ [shape]
      | none => accumulator) []
  | _ => []

/-- The import path of `handleFileChange` after successful JSON parsing:
sanitize the three recognized keys; when the nodes fail validation, surface
the user-visible alert (the `true` flag) and leave the document untouched;
otherwise dispatch IMPORT. -/
def importPayload (parsed : JVal) (state : MindMapState) : MindMapState × Bool :=
  let importedNodes := sanitizeImportedNodes (jget parsed "nodes")
  let importedAnnotations := sanitizeImportedAnnotations (jget parsed "annotations")
  let importedShapes := sanitizeImportedShapes (jget parsed "shapes")
  match importedNodes with
  | none => (state, true)
  | some nodes =>
    (mindMapReducer state (.importDoc nodes (some importedAnnotations) (some importedShapes)),
     false)

/-- C4: an import payload whose `nodes` key is missing, not a list, or
filters down to zero valid entries is rejected with the user-visible error
and leaves the document untouched; when the nodes validate, the import goes
through without error, absent or non-array `annotations` / `shapes` keys
default to empty lists, the result depends only on the three recognized
top-level keys (all others are ignored), and a malformed shape entry is
dropped without affecting the rest of the import. -/
theorem import_validation :
    (∀ (parsed : JVal) (s : MindMapState),
      (jget parsed "nodes" = none ∨
        (∃ items, jget parsed "nodes" = some (.arr items) ∧
          items.filterMap parseImportedNode = []) ∨
        (∀ items, jget parsed "nodes" ≠ some (.arr items))) →
      importPayload parsed s = (s, true)) ∧
    (∀ (parsed : JVal) (s : MindMapState) (ns : List MindMapNode),
      sanitizeImportedNodes (jget parsed "nodes") = some ns →
      (importPayload parsed s).2 = false ∧
      ((∀ items, jget parsed "annotations" ≠ some (.arr items)) →
        (importPayload parsed s).1.annotations = []) ∧
      ((∀ items, jget parsed "shapes" ≠ some (.arr items)) →
        (importPayload parsed s).1.shapes = [])) ∧
    (∀ (parsed parsed' : JVal) (s : MindMapState),
      jget parsed "nodes" = jget parsed' "nodes" →
      jget parsed "annotations" = jget parsed' "annotations" →
      jget parsed "shapes" = jget parsed' "shapes" →
      importPayload parsed s = importPayload parsed' s) ∧
    (∀ (bad : JVal) (rest : List JVal),
      parseImportedShape bad = none →
      sanitizeImportedShapes (some (.arr (bad :: rest))) =
        sanitizeImportedShapes (some (.arr rest))) := by
  refine ⟨?_, ?_, ?_, ?_⟩
  · intro parsed s hcond
    have hnone : sanitizeImportedNodes (jget parsed "nodes") = none := by
      rcases hcond with h | ⟨items, hit, hemp⟩ | hnot
      · rw [h]; rfl
      · rw [hit]
        simp [sanitizeImportedNodes, hemp]
      · cases hv : jget parsed "nodes" with
        | none => rfl
        | some v =>
          cases v
          case arr items => exact absurd hv (hnot items)
          all_goals rfl
    simp [importPayload, hnone]
  · intro parsed s ns hsome
    refine ⟨?_, ?_, ?_⟩
    · simp [importPayload, hsome]
    · intro hno
      have ha : sanitizeImportedAnnotations (jget parsed "annotations") = [] := by
        cases hv : jget parsed "annotations" with
        | none => rfl
        | some v =>
          cases v
          case arr items => exact absurd hv (hno items)
          all_goals rfl
      simp [importPayload, hsome, ha, mindMapReducer]
    · intro hno
      have hs : sanitizeImportedShapes (jget parsed "shapes") = [] := by
        cases hv : jget parsed "shapes" with
        | none => rfl
        | some v =>
          cases v
          case arr items => exact absurd hv (hno items)
          all_goals rfl
      simp [importPayload, hsome, hs, mindMapReducer]
  · intro parsed parsed' s h1 h2 h3
    simp only [importPayload, h1, h2, h3]
  · intro bad rest h
    simp [sanitizeImportedShapes, h]

theorem import_validation_witness :
    importPayload (.obj [("nodes", .arr []), ("extra", .num 3)]) initialState =
      (initialState, true) ∧
    sanitizeImportedShapes (some (.arr [JVal.null])) = sanitizeImportedShapes (some (.arr [])) :=
  ⟨import_validation.1 (.obj [("nodes", .arr []), ("extra", .num 3)]) initialState
      (Or.inr (Or.inl ⟨[], rfl, rfl⟩)),
   import_validation.2.2.2 JVal.null [] rfl⟩

/-- Ring branch of the shape-resize pointer handler; `distance` is the
pointer's distance from the shape center (`Math.hypot` in the source). -/
def ringResizeRadius (thickness distance : ℚ) : ℚ :=
  let minRadius := max RING_MIN_RADIUS (thickness / 2 + 4)
  max minRadius distance

/-- Ellipse branch; `deltaX`/`deltaY` are the pointer's absolute offsets from
the center. -/
def ellipseResize (thickness deltaX deltaY : ℚ) : ℚ × ℚ :=
  let minRadiusX := max ELLIPSE_MIN_RADIUS_X (thickness / 2 + 6)
  let minRadiusY := max ELLIPSE_MIN_RADIUS_Y (thickness / 2 + 6)
  (max minRadiusX deltaX, max minRadiusY deltaY)

/-- Rectangle branch: clamped half-extents, doubled. -/
def rectangleResize (thickness deltaX deltaY : ℚ) : ℚ × ℚ :=
  let minHalfWidth := max (RECTANGLE_MIN_WIDTH / 2) (thickness / 2 + 6)
  let minHalfHeight := max (RECTANGLE_MIN_HEIGHT / 2) (thickness / 2 + 6)
  ((max minHalfWidth deltaX) * 2, (max minHalfHeight deltaY) * 2)

structure ArrowResizeResult where
  width : ℚ
  height : ℚ
  thickness : ℚ
  angle : ℚ
deriving DecidableEq

/-- Arrow branch; `localX`/`localY` are the pointer's coordinates in the
arrow's local frame (computed with `atan2`/rotation in the source) and
`nextAngle` the recomputed rotation. -/
def arrowResize (shapeThickness localX localY nextAngle : ℚ) : ArrowResizeResult :=
  let minHalfWidth := ARROW_MIN_WIDTH / 2
  let minHalfHeight := ARROW_MIN_HEIGHT / 2
  let nextHalfWidth := max minHalfWidth |localX|
  let rawHalfHeight := max minHalfHeight |localY|
  let nextWidth := nextHalfWidth * 2
  let thicknessLimit := min shapeThickness (rawHalfHeight * 2)
  let nextThickness := max ARROW_MIN_THICKNESS thicknessLimit
  let halfThickness := max (nextThickness / 2) (ARROW_MIN_THICKNESS / 2)
  let headHalfHeight := (enforceArrowHeadHeights rawHalfHeight halfThickness).1
  { width := nextWidth, height := headHalfHeight * 2, thickness := nextThickness,
    angle := nextAngle }

/-- Line branch: (nextLength, nextThickness, nextAngle). -/
def lineResize (localX localY nextAngle : ℚ) : ℚ × ℚ × ℚ :=
  let nextHalfLength := max (LINE_MIN_LENGTH / 2) |localX|
  (nextHalfLength * 2, max LINE_MIN_THICKNESS (|localY| * 2), nextAngle)

/-- The kind-specific dimensional minimums that import clamping guarantees
(ring / ellipse / rectangle import thickness is floored at 1). -/
def shapeMeetsMins : MindMapShape → Prop
  | .ring _ _ _ radius thickness _ => RING_MIN_RADIUS ≤ radius ∧ 1 ≤ thickness
  | .ellipse _ _ _ rx ry t _ => ELLIPSE_MIN_RADIUS_X ≤ rx ∧ ELLIPSE_MIN_RADIUS_Y ≤ ry ∧ 1 ≤ t
  | .rectangle _ _ _ w h t _ =>
      RECTANGLE_MIN_WIDTH ≤ w ∧ RECTANGLE_MIN_HEIGHT ≤ h ∧ 1 ≤ t
  | .arrow _ _ _ w h t _ _ =>
      ARROW_MIN_WIDTH ≤ w ∧ ARROW_MIN_HEIGHT ≤ h ∧ ARROW_MIN_THICKNESS ≤ t
  | .line _ _ _ l t _ _ => LINE_MIN_LENGTH ≤ l ∧ LINE_MIN_THICKNESS ≤ t

theorem ring_thickness_aux (r : ℚ) : (1 : ℚ) ≤ (max RING_MIN_RADIUS r) * 1.5 := by
  have h := le_max_left RING_MIN_RADIUS r
  have h48 : RING_MIN_RADIUS = (48 : ℚ) := rfl
  nlinarith [h, h48]

theorem ellipse_thickness_aux (rx ry : ℚ) :
    (1 : ℚ) ≤ min (max ELLIPSE_MIN_RADIUS_X rx) (max ELLIPSE_MIN_RADIUS_Y ry) :=
  le_min (le_trans (by norm_num [ELLIPSE_MIN_RADIUS_X]) (le_max_left _ _))
    (le_trans (by norm_num [ELLIPSE_MIN_RADIUS_Y]) (le_max_left _ _))

theorem rect_thickness_aux (w h : ℚ) :
    (1 : ℚ) ≤ min (max RECTANGLE_MIN_WIDTH w) (max RECTANGLE_MIN_HEIGHT h) / 2 := by
  have h1 := le_max_left RECTANGLE_MIN_WIDTH w
  have h2 := le_max_left RECTANGLE_MIN_HEIGHT h
  have hw : RECTANGLE_MIN_WIDTH = (120 : ℚ) := rfl
  have hh : RECTANGLE_MIN_HEIGHT = (80 : ℚ) := rfl
  have h3 : (80 : ℚ) ≤ min (max RECTANGLE_MIN_WIDTH w) (max RECTANGLE_MIN_HEIGHT h) :=
    le_min (by linarith) (by linarith)
  linarith

theorem arrow_height_aux (raw ht : ℚ) :
    ARROW_MIN_HEIGHT ≤ (enforceArrowHeadHeights raw ht).1 * 2 := by
  have h7 : ARROW_MIN_HEAD_HALF_HEIGHT ≤ (enforceArrowHeadHeights raw ht).1 :=
    le_max_right _ _
  have ha : ARROW_MIN_HEAD_HALF_HEIGHT = (7 : ℚ) := rfl
  have hb : ARROW_MIN_HEIGHT = (6 : ℚ) := rfl
  linarith

set_option maxHeartbeats 1000000 in
theorem parse_shape_meets (item : JVal) (shape : MindMapShape)
    (h : parseImportedShape item = some shape) : shapeMeetsMins shape := by
  unfold parseImportedShape at h
  repeat' split at h
  all_goals try exact Option.noConfusion h
  all_goals obtain rfl := Option.some.inj h
  -- the remaining goals are, in branch order: ring (explicit / default color),
  -- ellipse, rectangle, then arrow and line (color x angle variants)
  · exact ⟨le_max_left _ _, le_min (le_max_left _ _) (ring_thickness_aux _)⟩
  · exact ⟨le_max_left _ _, le_min (le_max_left _ _) (ring_thickness_aux _)⟩
  · exact ⟨le_max_left _ _, le_max_left _ _,
      le_min (le_max_left _ _) (ellipse_thickness_aux _ _)⟩
  · exact ⟨le_max_left _ _, le_max_left _ _,
      le_min (le_max_left _ _) (ellipse_thickness_aux _ _)⟩
  · exact ⟨le_max_left _ _, le_max_left _ _,
      le_min (le_max_left _ _) (rect_thickness_aux _ _)⟩
  · exact ⟨le_max_left _ _, le_max_left _ _,
      le_min (le_max_left _ _) (rect_thickness_aux _ _)⟩
  · exact ⟨le_max_left _ _, arrow_height_aux _ _, le_max_left _ _⟩
  · exact ⟨le_max_left _ _, arrow_height_aux _ _, le_max_left _ _⟩
  · exact ⟨le_max_left _ _, arrow_height_aux _ _, le_max_left _ _⟩
  · exact ⟨le_max_left _ _, arrow_height_aux _ _, le_max_left _ _⟩
  · exact ⟨le_max_left _ _, le_max_left _ _⟩
  · exact ⟨le_max_left _ _, le_max_left _ _⟩
  · exact ⟨le_max_left _ _, le_max_left _ _⟩
  · exact ⟨le_max_left _ _, le_max_left _ _⟩

theorem sanitizeImportedShapes_mem (v : Option JVal) (shape : MindMapShape)
    (h : shape ∈ sanitizeImportedShapes v) : ∃ item, parseImportedShape item = some shape := by
  have hfold : ∀ (items : List JVal) (acc : List MindMapShape),
      shape ∈ items.foldl (fun accumulator item =>
        match parseImportedShape item with
        | some sh => accumulator ++ [sh]
        | none => accumulator) acc →
      shape ∈ acc ∨ ∃ item ∈ items, parseImportedShape item = some shape := by
    intro items
    induction items with
    | nil => intro acc hmem; exact Or.inl hmem
    | cons it rest ih =>
      intro acc hmem
      rcases ih _ hmem with hstep | ⟨item, hitem, hp⟩
      · cases hp : parseImportedShape it with
        | none =>
          rw [List.foldl_cons] at hmem
          simp only [hp] at hstep
          exact Or.inl hstep
        | some sh =>
          simp only [hp] at hstep
          rcases List.mem_append.mp hstep with hacc | hone
          · exact Or.inl hacc
          · refine Or.inr ⟨it, List.mem_cons_self it rest, ?_⟩
            rw [hp, List.mem_singleton.mp hone]
      · exact Or.inr ⟨item, List.mem_cons_of_mem it hitem, hp⟩
  cases v with
  | none => exact absurd h (by simp [sanitizeImportedShapes])
  | some w =>
    cases w
    case arr items =>
      rcases hfold items [] h with hemp | ⟨item, _, hp⟩
      · exact absurd hemp (List.not_mem_nil shape)
      · exact ⟨item, hp⟩
    all_goals exact absurd h (by simp [sanitizeImportedShapes])

/-- C6 counterexample: the ADD_SHAPE reducer case stores the provided shape
verbatim, so creating a ring with radius 10 (below the kind minimum 48)
yields a reachable state containing a ring whose stored radius is 10, not
the kind minimum. -/
theorem add_shape_unclamped :
    (mindMapReducer initialState (.addShape (.ring "s1" 0 0 10 18 "#38bdf8"))).shapes =
      [.ring "s1" 0 0 10 18 "#38bdf8"] ∧ (10 : ℚ) < RING_MIN_RADIUS := by
  exact ⟨rfl, by norm_num [RING_MIN_RADIUS]⟩

/-- C6 (amended): every shape-resize computation clamps each dimensional
field to its kind-specific minimum, and every shape accepted by the import
sanitizer satisfies the kind minimums; but ADD_SHAPE itself stores the given
dimensions unclamped (creation through the UI buttons always uses default
dimensions above the minimums), so a ring added with radius 10 keeps
radius 10. -/
theorem resize_and_import_clamp :
    (∀ thickness distance : ℚ, RING_MIN_RADIUS ≤ ringResizeRadius thickness distance) ∧
    (∀ t dx dy : ℚ, ELLIPSE_MIN_RADIUS_X ≤ (ellipseResize t dx dy).1 ∧
      ELLIPSE_MIN_RADIUS_Y ≤ (ellipseResize t dx dy).2) ∧
    (∀ t dx dy : ℚ, RECTANGLE_MIN_WIDTH ≤ (rectangleResize t dx dy).1 ∧
      RECTANGLE_MIN_HEIGHT ≤ (rectangleResize t dx dy).2) ∧
    (∀ st lx ly a : ℚ, ARROW_MIN_WIDTH ≤ (arrowResize st lx ly a).width ∧
      ARROW_MIN_HEIGHT ≤ (arrowResize st lx ly a).height ∧
      ARROW_MIN_THICKNESS ≤ (arrowResize st lx ly a).thickness) ∧
    (∀ lx ly a : ℚ, LINE_MIN_LENGTH ≤ (lineResize lx ly a).1 ∧
      LINE_MIN_THICKNESS ≤ (lineResize lx ly a).2.1) ∧
    (∀ (v : Option JVal) (shape : MindMapShape),
      shape ∈ sanitizeImportedShapes v → shapeMeetsMins shape) ∧
    (∀ (s : MindMapState) (shape : MindMapShape),
      (mindMapReducer s (.addShape shape)).shapes = s.shapes ++ [shape]) := by
  refine ⟨?_, ?_, ?_, ?_, ?_, ?_, ?_⟩
  · intro thickness distance
    exact le_trans (le_max_left _ _) (le_max_left _ _)
  · intro t dx dy
    exact ⟨le_trans (le_max_left _ _) (le_max_left _ _),
           le_trans (le_max_left _ _) (le_max_left _ _)⟩
  · intro t dx dy
    constructor
    · have h : RECTANGLE_MIN_WIDTH / 2 ≤ max (max (RECTANGLE_MIN_WIDTH / 2) (t / 2 + 6)) dx :=
        le_trans (le_max_left _ _) (le_max_left _ _)
      show RECTANGLE_MIN_WIDTH ≤ (max (max (RECTANGLE_MIN_WIDTH / 2) (t / 2 + 6)) dx) * 2
      linarith
    · have h : RECTANGLE_MIN_HEIGHT / 2 ≤ max (max (RECTANGLE_MIN_HEIGHT / 2) (t / 2 + 6)) dy :=
        le_trans (le_max_left _ _) (le_max_left _ _)
      show RECTANGLE_MIN_HEIGHT ≤ (max (max (RECTANGLE_MIN_HEIGHT / 2) (t / 2 + 6)) dy) * 2
      linarith
  · intro st lx ly a
    refine ⟨?_, ?_, le_max_left _ _⟩
    · have h : ARROW_MIN_WIDTH / 2 ≤ max (ARROW_MIN_WIDTH / 2) |lx| := le_max_left _ _
      show ARROW_MIN_WIDTH ≤ (max (ARROW_MIN_WIDTH / 2) |lx|) * 2
      linarith
    · exact arrow_height_aux _ _
  · intro lx ly a
    constructor
    · have h : LINE_MIN_LENGTH / 2 ≤ max (LINE_MIN_LENGTH / 2) |lx| := le_max_left _ _
      show LINE_MIN_LENGTH ≤ (max (LINE_MIN_LENGTH / 2) |lx|) * 2
      linarith
    · exact le_max_left _ _
  · intro v shape hmem
    obtain ⟨item, hp⟩ := sanitizeImportedShapes_mem v shape hmem
    exact parse_shape_meets item shape hp
  · intro s shape
    rfl

theorem resize_and_import_clamp_witness :
    RING_MIN_RADIUS ≤ ringResizeRadius 18 10 ∧
    (LINE_MIN_LENGTH ≤ (lineResize 3 1 0).1 ∧ LINE_MIN_THICKNESS ≤ (lineResize 3 1 0).2.1) ∧
    (mindMapReducer initialState (.addShape (.ring "s2" 0 0 10 18 "#38bdf8"))).shapes =
      initialState.shapes ++ [.ring "s2" 0 0 10 18 "#38bdf8"] :=
  ⟨resize_and_import_clamp.1 18 10,
   resize_and_import_clamp.2.2.2.2.1 3 1 0,
   resize_and_import_clamp.2.2.2.2.2.2 initialState (.ring "s2" 0 0 10 18 "#38bdf8")⟩

def MindMapShape.x : MindMapShape → ℚ
  | .ring _ x _ _ _ _ => x
  | .ellipse _ x _ _ _ _ _ => x
  | .rectangle _ x _ _ _ _ _ => x
  | .arrow _ x _ _ _ _ _ _ => x
  | .line _ x _ _ _ _ _ => x

def MindMapShape.y : MindMapShape → ℚ
  | .ring _ _ y _ _ _ => y
  | .ellipse _ _ y _ _ _ _ => y
  | .rectangle _ _ y _ _ _ _ => y
  | .arrow _ _ y _ _ _ _ _ => y
  | .line _ _ y _ _ _ _ => y

/-- The source's `InteractionState` union (minus the `null` case, which is
`Option.none` here); `annot` is the source's annotation drag mode. -/
inductive Interaction where
  | node (pointerId : ℤ) (nodeId : String) (offsetX offsetY : ℚ)
  | annot (pointerId : ℤ) (annotationId : String) (offsetX offsetY : ℚ)
  | shapeMove (pointerId : ℤ) (shapeId : String) (offsetX offsetY : ℚ)
  | shapeResize (pointerId : ℤ) (shapeId : String)
  | pan (pointerId : ℤ) (startClientX startClientY startOffsetX startOffsetY : ℚ)
      (moved : Bool)
deriving DecidableEq

def Interaction.pointerId : Interaction → ℤ
  | .node pid _ _ _ => pid
  | .annot pid _ _ _ => pid
  | .shapeMove pid _ _ _ => pid
  | .shapeResize pid _ => pid
  | .pan pid _ _ _ _ _ => pid

structure PointerEventData where
  button : ℤ
  pointerId : ℤ
  clientX : ℚ
  clientY : ℚ
deriving DecidableEq

/-- The interaction-state transition of `handlePointerDown`.  The four
hit-test `find` results (resize handle, node, annotation, shape-body, in the
order the handler computes them) are taken as inputs, since they are derived
from the scene point with `Math.hypot` / `Math.cos` / `Math.sin` and are
independent of the interaction state; `scenePoint` is the pointer's world
position and `startOffsets` the current view offsets captured for panning.
Returns the dispatched selection actions and the new interaction state. -/
def handlePointerDown (interaction : Option Interaction) (ev : PointerEventData)
    (isLocked : Bool) (hitResizeShape : Option MindMapShape) (hitNode : Option MindMapNode)
    (hitAnnot : Option MindMapAnnot) (hitShape : Option MindMapShape)
    (scenePoint : ℚ × ℚ) (startOffsets : ℚ × ℚ) :
    List MindMapAction × Option Interaction :=
  if ev.button = 2 then ([], interaction)
  else
    match hitResizeShape with
    | some shape =>
      ([.clearSelectedNodes, .selectAnnot none, .selectShape (some shape.id)],
        if isLocked then interaction
        else some (.shapeResize ev.pointerId shape.id))
    | none =>
    match hitNode with
    | some node =>
      ([.selectAnnot none, .selectShape none, .setSelectedNodes [node.id]],
        if isLocked then interaction
        else some (.node ev.pointerId node.id (scenePoint.1 - node.x) (scenePoint.2 - node.y)))
    | none =>
    match hitAnnot with
    | some a =>
      ([.clearSelectedNodes, .selectShape none, .selectAnnot (some a.id)],
        if isLocked then interaction
        else some (.annot ev.pointerId a.id (scenePoint.1 - a.x) (scenePoint.2 - a.y)))
    | none =>
    match hitShape with
    | some shape =>
      ([.clearSelectedNodes, .selectAnnot none, .selectShape (some shape.id)],
        if isLocked then interaction
        else some (.shapeMove ev.pointerId shape.id
          (scenePoint.1 - shape.x) (scenePoint.2 - shape.y)))
    | none =>
      if ev.button = 0 ∨ ev.button = 1 then
        ([], some (.pan ev.pointerId ev.clientX ev.clientY startOffsets.1 startOffsets.2 false))
      else ([], interaction)

/-- `finishInteraction`: release the interaction on pointer-up/cancel, but
only when the event's pointer id matches the active interaction's. -/
def finishInteraction (interaction : Option Interaction) (pointerId : ℤ)
    (shouldDeselect : Bool) : List MindMapAction × Option Interaction :=
  match interaction with
  | none => ([], none)
  | some i =>
    if i.pointerId ≠ pointerId then ([], some i)
    else
      (match i with
        | .pan _ _ _ _ _ moved =>
          if shouldDeselect ∧ moved = false then
            [.clearSelectedNodes, .selectAnnot none, .selectShape none]
          else []
        | _ => [],
       none)

/-- C9 counterexample: while a node drag owned by pointer 1 is active, a
pointer-down from pointer 2 over empty canvas (button 0, no hits) replaces
the active interaction with a pan owned by pointer 2 — `handlePointerDown`
never checks the active interaction's pointer id. -/
theorem pointer_down_replaces_interaction :
    (handlePointerDown (some (.node 1 "root" 0 0))
        { button := 0, pointerId := 2, clientX := 5, clientY := 5 } false
        none none none none (0, 0) (0, 0)).2 = some (.pan 2 5 5 0 0 false) ∧
    (Interaction.pan 2 5 5 0 0 false) ≠ (Interaction.node 1 "root" 0 0) :=
  ⟨rfl, by decide⟩

/-- C9 (amended): only pointer-up / pointer-cancel are filtered by pointer
id — `finishInteraction` with a non-matching id leaves the active
interaction untouched; a pointer-down, by contrast, installs a new
interaction keyed to its own pointer id whenever it hits a resize handle
(or, with no hits, starts a pan on button 0/1), replacing any in-progress
drag of a different pointer. -/
theorem pointer_interaction_guards :
    (∀ (i : Interaction) (pid : ℤ) (b : Bool), i.pointerId ≠ pid →
      finishInteraction (some i) pid b = ([], some i)) ∧
    (∀ (inter : Option Interaction) (ev : PointerEventData) (shape : MindMapShape)
        (hn : Option MindMapNode) (ha : Option MindMapAnnot) (hs : Option MindMapShape)
        (sp so : ℚ × ℚ), ev.button ≠ 2 →
      (handlePointerDown inter ev false (some shape) hn ha hs sp so).2 =
        some (.shapeResize ev.pointerId shape.id)) ∧
    (∀ (inter : Option Interaction) (ev : PointerEventData) (sp so : ℚ × ℚ),
      ev.button = 0 ∨ ev.button = 1 →
      (handlePointerDown inter ev false none none none none sp so).2 =
        some (.pan ev.pointerId ev.clientX ev.clientY so.1 so.2 false)) := by
  refine ⟨?_, ?_, ?_⟩
  · intro i pid b hne
    simp only [finishInteraction, if_pos hne]
  · intro inter ev shape hn ha hs sp so hb
    simp only [handlePointerDown, if_neg hb]
    rfl
  · intro inter ev sp so hb
    have hb2 : ev.button ≠ 2 := by
      rcases hb with h | h <;> rw [h] <;> decide
    simp only [handlePointerDown, if_neg hb2, if_pos hb]

theorem pointer_interaction_guards_witness :
    finishInteraction (some (.node 1 "root" 0 0)) 2 true = ([], some (.node 1 "root" 0 0)) ∧
    (handlePointerDown (some (.node 1 "root" 0 0))
        { button := 0, pointerId := 2, clientX := 5, clientY := 5 } false
        (some (.ring "s1" 0 0 48 18 "#38bdf8")) none none none (0, 0) (0, 0)).2 =
      some (.shapeResize 2 "s1") ∧
    (handlePointerDown none { button := 1, pointerId := 3, clientX := 7, clientY := 8 } false
        none none none none (0, 0) (4, 9)).2 = some (.pan 3 7 8 4 9 false) :=
  ⟨pointer_interaction_guards.1 (.node 1 "root" 0 0) 2 true (by decide),
   pointer_interaction_guards.2.1 (some (.node 1 "root" 0 0))
     { button := 0, pointerId := 2, clientX := 5, clientY := 5 }
     (.ring "s1" 0 0 48 18 "#38bdf8") none none none (0, 0) (0, 0) (by decide),
   pointer_interaction_guards.2.2 none { button := 1, pointerId := 3, clientX := 7, clientY := 8 }
     (0, 0) (4, 9) (Or.inr rfl)⟩

end Mindmapper
